import Mathlib

/-!
# cjdns routing-table janitor (`dht/dhtcore/Janitor.c`, `dht/dhtcore/Node.h`)

A shallow embedding of the maintenance engine of `Janitor.c` and of the search
sessions it creates, followed by theorems about them.

Conventions of the embedding.

* `uint64_t` and `uint32_t` values are natural numbers; the one place where the
  source can wrap, `timeOfNextGlobalMaintainence += globalMaintainenceMilliseconds`,
  is reduced modulo `2 ^ 64` explicitly.  A 16 byte search target is the natural
  number it spells; the code only copies and forwards it.
* `int searches` is an integer.  The source increments it only below 20 and
  decrements it once per ended session, so the arithmetic stays far inside the
  range of `int`.
* The collaborators (`RouterModule`, `SearchRunner`, `RouteTracer`, `NodeStore`,
  `Random`, the clock) are not part of the source.  Their answers are inputs of
  each operation (`Collaborators`), and every call that the source makes to them
  is appended, in program order, to the `events` of the state.  `Log_warn` and the
  unconditional `Log_debug` lines are appended to `log`; blocks under
  `#ifdef Log_DEBUG` are diagnostics only and are left out.
* A `RouterModule_Promise` whose `callback` is `responseCallback` is a key of
  `sessions`, paired with its `userData`.  `Allocator_free(search->alloc)` frees
  the promise and the session with it, so it removes the key.
-/

namespace Cjdns

/-- Modelled from the spec: `struct Address` of `dht/Address.h`, which is not part of the
source.  `ip6` is the 128 bit identifier (`ip6.bytes`), `path` the 64 bit route label; `rest`
stands for the remaining bytes, which `Janitor.c` only ever copies. -/
structure Address where
  ip6 : Nat
  path : Nat
  rest : Nat
  deriving DecidableEq, Repr

/-- The all-zero address, the content of a zero-initialised `struct Address`. -/
def Address.zero : Address := { ip6 := 0, path := 0, rest := 0 }

/-- `struct Node` of `Node.h`. -/
structure Node where
  reach : Nat
  version : Nat
  address : Address
  timeOfNextPing : Nat
  missedPings : Nat
  deriving DecidableEq, Repr

/-- `struct Janitor`, without the pointers to its collaborators. -/
structure Janitor where
  globalMaintainenceMilliseconds : Nat
  timeOfNextGlobalMaintainence : Nat
  timeOfNextSearchRepeat : Nat
  searchRepeatMilliseconds : Nat
  searches : Int
  deriving DecidableEq, Repr

/-- `#define Janitor_Search_searchType_COMPLETE 1` -/
def Janitor_Search_searchType_COMPLETE : Int := 1

/-- `#define Janitor_Search_searchType_PARTIAL 2` -/
def Janitor_Search_searchType_PARTIAL : Int := 2

/-- `struct Janitor_Search`.  `alloc` names the child allocator of the session. -/
structure Janitor_Search where
  best : Address
  target : Nat
  searchType : Int
  alloc : Nat
  deriving DecidableEq, Repr

/-- Calls made to the collaborators. -/
inductive Event where
  | getNode
  | pingNode (node : Node)
  | randomBytes
  | lookup (target : Nat)
  | allocatorChild (alloc : Nat)
  | searchRunnerSearch (target : Nat) (alloc : Nat)
  | trace (path : Nat)
  | allocatorFree (alloc : Nat)
  deriving DecidableEq, Repr

/-- Lines written to the logger. -/
inductive LogLine where
  | warnNoNodes
  | foundNearbyTarget
  | completedNoNodes
  | skipping20
  | searchReturnedNull
  deriving DecidableEq, Repr

/-- The answers of the collaborators during one tick or one notification. -/
structure Collaborators where
  now : Nat
  nodeStoreSize : Nat
  getNode : Option Node
  randomBytes : Nat
  lookup : Nat → Option Node
  searchRunnerSearch : Nat → Bool

/-- The engine together with its live sessions and everything it has done so far.
`fresh` numbers the child allocators (and the promise each one carries) as they are created. -/
structure State where
  janitor : Janitor
  sessions : List (Nat × Janitor_Search)
  fresh : Nat
  events : List Event
  log : List LogLine
  deriving DecidableEq, Repr

/-- Append a collaborator call. -/
def State.emit (st : State) (e : Event) : State :=
  { st with events := st.events ++ [e] }

/-- Append a log line. -/
def State.say (st : State) (l : LogLine) : State :=
  { st with log := st.log ++ [l] }

/-- The `userData` of a live promise. -/
def State.userData (st : State) (promise : Nat) : Option Janitor_Search :=
  st.sessions.lookup promise

/-- Store a modified session back under its promise. -/
def State.setSession (st : State) (promise : Nat) (s : Janitor_Search) : State :=
  { st with sessions := st.sessions.map (fun p => if p.1 = promise then (p.1, s) else p) }

/-- Forget a promise whose allocator has been freed. -/
def State.dropSession (st : State) (promise : Nat) : State :=
  { st with sessions := st.sessions.filter (fun p => p.1 ≠ promise) }

/-- Lines 110-127 of `responseCallback`: the end of a session. -/
def endSearch (st : State) (promise : Nat) (search : Janitor_Search) : State :=
  let st1 := { st with janitor := { st.janitor with searches := st.janitor.searches - 1 } }
  let st2 :=
    if search.best.path = 0 then
      st1.say LogLine.completedNoNodes
    else
      st1.emit (Event.trace search.best.path)
  (st2.emit (Event.allocatorFree search.alloc)).dropSession promise

/-- The test `!n || n->reach == 0` on the result of `RouterModule_lookup`. -/
def nullOrZeroReach : Option Node → Bool
  | none => true
  | some n => decide (n.reach = 0)

/-- `responseCallback`, called for `promise` with an optional `fromNode`.  A promise that
is not live has no callback left to call. -/
def responseCallback (c : Collaborators) (st : State) (promise : Nat)
    (fromNode : Option Node) : State :=
  match st.userData promise with
  | none => st
  | some search0 =>
    match fromNode with
    | some node =>
      let search := { search0 with best := node.address }
      let st1 := st.setSession promise search
      if search.searchType = Janitor_Search_searchType_COMPLETE then
        st1
      else
        let st2 := st1.emit (Event.lookup search.target)
        if nullOrZeroReach (c.lookup search.target) then
          st2
        else
          endSearch (st2.say LogLine.foundNearbyTarget) promise search
    | none => endSearch st promise search0

/-- `search`: the launch of a search for `target`. -/
def search (c : Collaborators) (target : Nat) (st : State) (searchType : Int) : State :=
  if st.janitor.searches ≥ 20 then
    st.say LogLine.skipping20
  else
    let searchAlloc := st.fresh
    let st1 := ({ st with fresh := st.fresh + 1 }).emit (Event.allocatorChild searchAlloc)
    let st2 := st1.emit (Event.searchRunnerSearch target searchAlloc)
    if c.searchRunnerSearch target = false then
      st2.say LogLine.searchReturnedNull
    else
      let st3 := { st2 with janitor := { st2.janitor with searches := st2.janitor.searches + 1 } }
      let s : Janitor_Search :=
        { best := Address.zero, target := target, searchType := searchType, alloc := searchAlloc }
      { st3 with sessions := (searchAlloc, s) :: st3.sessions }

/-- The state after a launch that started a search: lines 148-159 of `search` applied
to `st`, with `st.fresh` as the new child allocator and promise. -/
def State.launched (st : State) (target : Nat) (searchType : Int) : State :=
  { janitor := { st.janitor with searches := st.janitor.searches + 1 }
    sessions :=
      (st.fresh, { best := Address.zero, target := target, searchType := searchType,
                   alloc := st.fresh }) :: st.sessions
    fresh := st.fresh + 1
    events := st.events ++ [Event.allocatorChild st.fresh]
                ++ [Event.searchRunnerSearch target st.fresh]
    log := st.log }

/-- The state after a launch that the search runner declined: lines 139-145 of `search`. -/
def State.declined (st : State) (target : Nat) : State :=
  { st with
    fresh := st.fresh + 1
    events := st.events ++ [Event.allocatorChild st.fresh]
                ++ [Event.searchRunnerSearch target st.fresh]
    log := st.log ++ [LogLine.searchReturnedNull] }

/-- `janitor->timeOfNextGlobalMaintainence += janitor->globalMaintainenceMilliseconds`,
in `uint64_t`. -/
def advanceGlobalMaintainence (st : State) : State :=
  { st with janitor := { st.janitor with
      timeOfNextGlobalMaintainence :=
        (st.janitor.timeOfNextGlobalMaintainence
          + st.janitor.globalMaintainenceMilliseconds) % 2 ^ 64 } }

/-- Lines 177-193 of `maintanenceCycle`: ping a random node, then choose the search type and
the target.  Returns `(searchType, targetAddr.ip6.bytes, state)`. -/
def chooseTarget (c : Collaborators) (st : State) : Int × Nat × State :=
  let randomNode := c.getNode
  let st1 := st.emit Event.getNode
  let st2 :=
    match randomNode with
    | some node => st1.emit (Event.pingNode node)
    | none => st1
  match randomNode with
  | some node =>
    if node.reach = 0 then
      (Janitor_Search_searchType_COMPLETE, node.address.ip6, st2)
    else
      (Janitor_Search_searchType_PARTIAL, c.randomBytes, st2.emit Event.randomBytes)
  | none => (Janitor_Search_searchType_PARTIAL, c.randomBytes, st2.emit Event.randomBytes)

/-- The state of `maintanenceCycle` after line 195, `RouterModule_lookup` for the chosen
target. -/
def beforeLaunch (c : Collaborators) (st : State) : State :=
  (chooseTarget c st).2.2.emit (Event.lookup (chooseTarget c st).2.1)

/-- `maintanenceCycle`: one tick of the timer. -/
def maintanenceCycle (c : Collaborators) (st : State) : State :=
  let now := c.now
  if c.nodeStoreSize = 0 then
    if now > st.janitor.timeOfNextGlobalMaintainence then
      advanceGlobalMaintainence (st.say LogLine.warnNoNodes)
    else
      st
  else
    let searchType := (chooseTarget c st).1
    let target := (chooseTarget c st).2.1
    let st3 := beforeLaunch c st
    if nullOrZeroReach (c.lookup target) then
      search c target st3 searchType
    else if now > st3.janitor.timeOfNextGlobalMaintainence then
      advanceGlobalMaintainence (search c target st3 Janitor_Search_searchType_COMPLETE)
    else
      st3

/-- `Janitor_new`, called when the clock shows `now`: the fresh engine, no session, nothing
done yet.  The interval timer it registers is what later calls `maintanenceCycle`. -/
def Janitor_new (globalMaintainenceMilliseconds : Nat) (now : Nat) : State :=
  { janitor :=
      { globalMaintainenceMilliseconds := globalMaintainenceMilliseconds
        timeOfNextGlobalMaintainence := now
        timeOfNextSearchRepeat := 0
        searchRepeatMilliseconds := 0
        searches := 0 }
    sessions := []
    fresh := 0
    events := []
    log := [] }

/-- What the event loop can deliver to the engine. -/
inductive Input where
  | tick (c : Collaborators)
  | notify (c : Collaborators) (promise : Nat) (fromNode : Option Node)

/-- Deliver one input. -/
def step (st : State) : Input → State
  | Input.tick c => maintanenceCycle c st
  | Input.notify c promise fromNode => responseCallback c st promise fromNode

/-- The promise an input is a notification for. -/
def Input.addressed : Input → Option Nat
  | Input.tick _ => none
  | Input.notify _ promise _ => some promise

/-- Deliver a sequence of inputs, first to last. -/
def run (st : State) (inputs : List Input) : State :=
  inputs.foldl step st

/-- The paths of the `RouteTracer_trace` calls among `evs`, in order. -/
def tracesOf : List Event → List Nat
  | [] => []
  | Event.trace path :: evs => path :: tracesOf evs
  | _ :: evs => tracesOf evs

/-- The promises of the live sessions. -/
def State.sessionKeys (st : State) : List Nat :=
  st.sessions.map Prod.fst

/-- No session is launched and none ends while `inputs` are delivered to `st`. -/
def quiet (st : State) : List Input → Prop
  | [] => True
  | i :: inputs => (step st i).sessionKeys = st.sessionKeys ∧ quiet (step st i) inputs

/-- The nodes of the `RouterModule_pingNode` calls among `evs`, in order. -/
def pingsOf : List Event → List Node
  | [] => []
  | Event.pingNode node :: evs => node :: pingsOf evs
  | _ :: evs => pingsOf evs

/-- The allocators of the `Allocator_free` calls among `evs`, in order. -/
def freesOf : List Event → List Nat
  | [] => []
  | Event.allocatorFree alloc :: evs => alloc :: freesOf evs
  | _ :: evs => freesOf evs

/-- Notifications for `promise`, each with a present "from" node, as inputs. -/
def heardFrom (promise : Nat) (ns : List (Collaborators × Node)) : List Input :=
  ns.map (fun n => Input.notify n.1 promise (some n.2))

/-- The bookkeeping of a state is consistent: no promise is registered twice, every
registered promise was handed out before `fresh`, and `searches` counts the sessions. -/
def State.consistent (st : State) : Prop :=
  st.sessionKeys.Nodup ∧ (∀ k ∈ st.sessionKeys, k < st.fresh)
    ∧ st.janitor.searches = st.sessions.length

/-! ### Sample values -/

/-- A node with reach 0 whose route label is 5. -/
def sampleNode : Node :=
  { reach := 0, version := 1, address := { ip6 := 77, path := 5, rest := 3 },
    timeOfNextPing := 0, missedPings := 0 }

/-- A node with positive reach. -/
def sampleGoodNode : Node :=
  { reach := 100, version := 1, address := { ip6 := 78, path := 21, rest := 4 },
    timeOfNextPing := 0, missedPings := 0 }

/-- A node whose recorded route label is 0. -/
def sampleZeroPathNode : Node :=
  { reach := 100, version := 1, address := { ip6 := 79, path := 0, rest := 5 },
    timeOfNextPing := 0, missedPings := 0 }

/-- Collaborators of an empty table at time 5000: no node, no route, searches accepted. -/
def sampleEmpty : Collaborators :=
  { now := 5000, nodeStoreSize := 0, getNode := none, randomBytes := 9,
    lookup := fun _ => none, searchRunnerSearch := fun _ => true }

/-- Collaborators of an empty table at time `now`. -/
def emptyAt (now : Nat) : Collaborators :=
  { sampleEmpty with now := now }

/-- Collaborators that know `sampleGoodNode` as the route to every target. -/
def sampleCovered : Collaborators :=
  { now := 5000, nodeStoreSize := 1, getNode := some sampleGoodNode, randomBytes := 9,
    lookup := fun _ => some sampleGoodNode, searchRunnerSearch := fun _ => true }

/-- Collaborators whose arbitrary node is `sampleNode` and that know no route. -/
def sampleSparse : Collaborators :=
  { now := 5000, nodeStoreSize := 1, getNode := some sampleNode, randomBytes := 9,
    lookup := fun _ => none, searchRunnerSearch := fun _ => true }

/-- An engine with one live session of the given kind, for target 7, under promise 0. -/
def sampleState (searchType : Int) : State :=
  { janitor :=
      { globalMaintainenceMilliseconds := 1000
        timeOfNextGlobalMaintainence := 0
        timeOfNextSearchRepeat := 0
        searchRepeatMilliseconds := 0
        searches := 1 }
    sessions := [(0, { best := Address.zero, target := 7, searchType := searchType, alloc := 0 })]
    fresh := 1
    events := []
    log := [] }

/-- An engine with 20 searches in flight. -/
def sampleFull : State :=
  { sampleState Janitor_Search_searchType_COMPLETE with
    janitor := { (sampleState Janitor_Search_searchType_COMPLETE).janitor with searches := 20 } }

/-- Collaborators like `sampleCovered` whose search runner declines every request. -/
def sampleCoveredDeclining : Collaborators :=
  { sampleCovered with searchRunnerSearch := fun _ => false }

/-! ## Basic facts about the state operations -/


@[simp] theorem emit_janitor (st : State) (e : Event) : (st.emit e).janitor = st.janitor := rfl
@[simp] theorem emit_sessions (st : State) (e : Event) : (st.emit e).sessions = st.sessions := rfl
@[simp] theorem emit_fresh (st : State) (e : Event) : (st.emit e).fresh = st.fresh := rfl
@[simp] theorem emit_events (st : State) (e : Event) : (st.emit e).events = st.events ++ [e] := rfl
@[simp] theorem emit_log (st : State) (e : Event) : (st.emit e).log = st.log := rfl
@[simp] theorem say_janitor (st : State) (l : LogLine) : (st.say l).janitor = st.janitor := rfl
@[simp] theorem say_sessions (st : State) (l : LogLine) : (st.say l).sessions = st.sessions := rfl
@[simp] theorem say_fresh (st : State) (l : LogLine) : (st.say l).fresh = st.fresh := rfl
@[simp] theorem say_events (st : State) (l : LogLine) : (st.say l).events = st.events := rfl
@[simp] theorem say_log (st : State) (l : LogLine) : (st.say l).log = st.log ++ [l] := rfl
@[simp] theorem setSession_janitor (st : State) (p : Nat) (s : Janitor_Search) :
    (st.setSession p s).janitor = st.janitor := rfl
@[simp] theorem setSession_fresh (st : State) (p : Nat) (s : Janitor_Search) :
    (st.setSession p s).fresh = st.fresh := rfl
@[simp] theorem setSession_events (st : State) (p : Nat) (s : Janitor_Search) :
    (st.setSession p s).events = st.events := rfl
@[simp] theorem setSession_log (st : State) (p : Nat) (s : Janitor_Search) :
    (st.setSession p s).log = st.log := rfl
@[simp] theorem dropSession_janitor (st : State) (p : Nat) :
    (st.dropSession p).janitor = st.janitor := rfl
@[simp] theorem dropSession_fresh (st : State) (p : Nat) :
    (st.dropSession p).fresh = st.fresh := rfl
@[simp] theorem dropSession_events (st : State) (p : Nat) :
    (st.dropSession p).events = st.events := rfl
@[simp] theorem dropSession_log (st : State) (p : Nat) :
    (st.dropSession p).log = st.log := rfl

theorem lookup_cons_other (l : List (Nat × Janitor_Search)) (p k : Nat) (v : Janitor_Search)
    (h : p ≠ k) : ((k, v) :: l).lookup p = l.lookup p := by
  have hk : (p == k) = false := by simpa using h
  rw [List.lookup_cons, hk]

theorem lookup_map_same (l : List (Nat × Janitor_Search)) (p : Nat) (s s' : Janitor_Search)
    (h : l.lookup p = some s) :
    (l.map (fun q => if q.1 = p then (q.1, s') else q)).lookup p = some s' := by
  induction l with
  | nil => simp at h
  | cons a l ih =>
    obtain ⟨k, v⟩ := a
    rw [List.map_cons]
    by_cases hk : k = p
    · subst hk
      rw [if_pos rfl]
      exact List.lookup_cons_self
    · rw [if_neg hk, lookup_cons_other _ _ _ _ (Ne.symm hk)]
      rw [lookup_cons_other _ _ _ _ (Ne.symm hk)] at h
      exact ih h

theorem lookup_map_other (l : List (Nat × Janitor_Search)) (p q : Nat) (s' : Janitor_Search)
    (h : p ≠ q) :
    (l.map (fun r => if r.1 = q then (r.1, s') else r)).lookup p = l.lookup p := by
  induction l with
  | nil => rfl
  | cons a l ih =>
    obtain ⟨k, v⟩ := a
    rw [List.map_cons]
    by_cases hk : k = q
    · subst hk
      rw [if_pos rfl, lookup_cons_other _ _ _ _ h, lookup_cons_other _ _ _ _ h, ih]
    · rw [if_neg hk]
      by_cases hp : p = k
      · subst hp
        rw [List.lookup_cons_self, List.lookup_cons_self]
      · rw [lookup_cons_other _ _ _ _ hp, lookup_cons_other _ _ _ _ hp, ih]

theorem lookup_filter_same (l : List (Nat × Janitor_Search)) (p : Nat) :
    (l.filter (fun q => q.1 ≠ p)).lookup p = none := by
  induction l with
  | nil => rfl
  | cons a l ih =>
    obtain ⟨k, v⟩ := a
    by_cases hk : k = p
    · subst hk
      rw [List.filter_cons_of_neg (by simp)]
      exact ih
    · rw [List.filter_cons_of_pos (by simpa using hk), lookup_cons_other _ _ _ _ (Ne.symm hk)]
      exact ih

theorem lookup_filter_other (l : List (Nat × Janitor_Search)) (p q : Nat) (h : p ≠ q) :
    (l.filter (fun r => r.1 ≠ q)).lookup p = l.lookup p := by
  induction l with
  | nil => rfl
  | cons a l ih =>
    obtain ⟨k, v⟩ := a
    by_cases hk : k = q
    · subst hk
      rw [List.filter_cons_of_neg (by simp), lookup_cons_other _ _ _ _ h]
      exact ih
    · rw [List.filter_cons_of_pos (by simpa using hk)]
      by_cases hp : p = k
      · subst hp
        rw [List.lookup_cons_self, List.lookup_cons_self]
      · rw [lookup_cons_other _ _ _ _ hp, lookup_cons_other _ _ _ _ hp]
        exact ih

theorem userData_setSession_same (st : State) (p : Nat) (s s' : Janitor_Search)
    (h : st.userData p = some s) : (st.setSession p s').userData p = some s' :=
  lookup_map_same st.sessions p s s' h

theorem userData_setSession_other (st : State) (p q : Nat) (s' : Janitor_Search) (h : p ≠ q) :
    (st.setSession q s').userData p = st.userData p :=
  lookup_map_other st.sessions p q s' h

theorem userData_dropSession_same (st : State) (p : Nat) : (st.dropSession p).userData p = none :=
  lookup_filter_same st.sessions p

theorem userData_dropSession_other (st : State) (p q : Nat) (h : p ≠ q) :
    (st.dropSession q).userData p = st.userData p :=
  lookup_filter_other st.sessions p q h

@[simp] theorem userData_emit (st : State) (e : Event) (p : Nat) :
    (st.emit e).userData p = st.userData p := rfl
@[simp] theorem userData_say (st : State) (l : LogLine) (p : Nat) :
    (st.say l).userData p = st.userData p := rfl


theorem sessionKeys_setSession (st : State) (p : Nat) (s : Janitor_Search) :
    (st.setSession p s).sessionKeys = st.sessionKeys := by
  unfold State.setSession State.sessionKeys
  simp only [List.map_map]
  apply List.map_congr_left
  intro a _
  by_cases h : a.1 = p <;> simp [h]

@[simp] theorem sessionKeys_emit (st : State) (e : Event) :
    (st.emit e).sessionKeys = st.sessionKeys := rfl
@[simp] theorem sessionKeys_say (st : State) (l : LogLine) :
    (st.say l).sessionKeys = st.sessionKeys := rfl

/-! ## Notifications with a "from" node -/

/-- What `responseCallback` does for a live COMPLETE session when `fromNode` is present:
it stores the address and returns. -/
theorem responseCallback_complete (c : Collaborators) (st : State) (promise : Nat)
    (s : Janitor_Search) (node : Node) (hlive : st.userData promise = some s)
    (hkind : s.searchType = Janitor_Search_searchType_COMPLETE) :
    responseCallback c st promise (some node)
      = st.setSession promise { s with best := node.address } := by
  unfold responseCallback
  rw [hlive]
  simp [hkind]

/-- The test `!n || n->reach == 0` fails exactly for a node of positive reach. -/
theorem nullOrZeroReach_eq_false (o : Option Node) :
    nullOrZeroReach o = false ↔ ∃ n, o = some n ∧ 0 < n.reach := by
  cases o with
  | none => simp [nullOrZeroReach]
  | some n => simp [nullOrZeroReach, Nat.pos_iff_ne_zero]

/-- The test `!n || n->reach == 0` holds for no node and for a node of reach 0. -/
theorem nullOrZeroReach_eq_true (o : Option Node) :
    nullOrZeroReach o = true ↔ ∀ n, o = some n → n.reach = 0 := by
  cases o with
  | none => simp [nullOrZeroReach]
  | some n => simp [nullOrZeroReach]

/-- What `responseCallback` does for a live session that is not COMPLETE when `fromNode`
is present and the lookup finds no node of positive reach. -/
theorem responseCallback_waits (c : Collaborators) (st : State) (promise : Nat)
    (s : Janitor_Search) (node : Node) (hlive : st.userData promise = some s)
    (hkind : s.searchType ≠ Janitor_Search_searchType_COMPLETE)
    (hlook : ∀ n, c.lookup s.target = some n → n.reach = 0) :
    responseCallback c st promise (some node)
      = (st.setSession promise { s with best := node.address }).emit (Event.lookup s.target) := by
  unfold responseCallback
  rw [hlive]
  simp only [hkind, if_false, (nullOrZeroReach_eq_true _).mpr hlook, if_true]

/-- What `responseCallback` does for a live session that is not COMPLETE when `fromNode`
is present and the lookup finds a node of positive reach. -/
theorem responseCallback_aborts (c : Collaborators) (st : State) (promise : Nat)
    (s : Janitor_Search) (node n : Node) (hlive : st.userData promise = some s)
    (hkind : s.searchType ≠ Janitor_Search_searchType_COMPLETE)
    (hlook : c.lookup s.target = some n) (hreach : n.reach ≠ 0) :
    responseCallback c st promise (some node)
      = endSearch ((((st.setSession promise { s with best := node.address }).emit
          (Event.lookup s.target))).say LogLine.foundNearbyTarget) promise
          { s with best := node.address } := by
  have hf : nullOrZeroReach (c.lookup s.target) = false :=
    (nullOrZeroReach_eq_false _).mpr ⟨n, hlook, Nat.pos_of_ne_zero hreach⟩
  unfold responseCallback
  rw [hlive]
  simp [hkind, hf]

/-- What `responseCallback` does for a live session when `fromNode` is absent. -/
theorem responseCallback_none (c : Collaborators) (st : State) (promise : Nat)
    (s : Janitor_Search) (hlive : st.userData promise = some s) :
    responseCallback c st promise none = endSearch st promise s := by
  unfold responseCallback
  rw [hlive]

/-- A notification for a promise that is not live changes nothing. -/
theorem responseCallback_dead (c : Collaborators) (st : State) (promise : Nat)
    (fromNode : Option Node) (hdead : st.userData promise = none) :
    responseCallback c st promise fromNode = st := by
  unfold responseCallback
  rw [hdead]

theorem endSearch_searches (st : State) (promise : Nat) (s : Janitor_Search) :
    (endSearch st promise s).janitor.searches = st.janitor.searches - 1 := by
  unfold endSearch
  split <;> rfl

theorem endSearch_janitor (st : State) (promise : Nat) (s : Janitor_Search) :
    (endSearch st promise s).janitor
      = { st.janitor with searches := st.janitor.searches - 1 } := by
  unfold endSearch
  split <;> rfl

theorem endSearch_userData (st : State) (promise : Nat) (s : Janitor_Search) :
    (endSearch st promise s).userData promise = none := by
  unfold endSearch
  exact userData_dropSession_same _ _

theorem endSearch_userData_other (st : State) (promise p : Nat) (s : Janitor_Search)
    (h : p ≠ promise) : (endSearch st promise s).userData p = st.userData p := by
  unfold endSearch
  rw [userData_dropSession_other _ _ _ h]
  split <;> rfl

theorem endSearch_fresh (st : State) (promise : Nat) (s : Janitor_Search) :
    (endSearch st promise s).fresh = st.fresh := by
  unfold endSearch
  split <;> rfl

theorem endSearch_events (st : State) (promise : Nat) (s : Janitor_Search) :
    (endSearch st promise s).events
      = st.events ++ (if s.best.path = 0 then [] else [Event.trace s.best.path])
          ++ [Event.allocatorFree s.alloc] := by
  unfold endSearch
  split <;> simp

theorem endSearch_sessions (st : State) (promise : Nat) (s : Janitor_Search) :
    (endSearch st promise s).sessions = st.sessions.filter (fun p => p.1 ≠ promise) := by
  unfold endSearch
  split <;> rfl

/-- C1, refuted as stated: a COMPLETE session (promise 0 of `sampleState`) is notified with a
present "from" node.  The counter is not decremented, the session stays registered, its
allocator is not freed and no trace is requested. -/
theorem complete_from_present_counterexample :
    (sampleState Janitor_Search_searchType_COMPLETE).userData 0
        = some { best := Address.zero, target := 7,
                 searchType := Janitor_Search_searchType_COMPLETE, alloc := 0 }
      ∧ (responseCallback sampleEmpty (sampleState Janitor_Search_searchType_COMPLETE) 0
          (some sampleNode)).janitor.searches
        ≠ (sampleState Janitor_Search_searchType_COMPLETE).janitor.searches - 1
      ∧ (responseCallback sampleEmpty (sampleState Janitor_Search_searchType_COMPLETE) 0
          (some sampleNode)).userData 0 ≠ none
      ∧ Event.allocatorFree 0 ∉ (responseCallback sampleEmpty
          (sampleState Janitor_Search_searchType_COMPLETE) 0 (some sampleNode)).events
      ∧ Event.trace sampleNode.address.path ∉ (responseCallback sampleEmpty
          (sampleState Janitor_Search_searchType_COMPLETE) 0 (some sampleNode)).events := by
  decide

/-- C1, amended: for every live COMPLETE session and every notification with a present
"from" node, the handler only overwrites best-address-seen with the node's address and
returns.  The session stays registered, `searches` and the rest of the engine are unchanged,
and no collaborator is called: nothing is traced and nothing is freed. -/
theorem complete_from_present_keeps_session (c : Collaborators) (st : State) (promise : Nat)
    (s : Janitor_Search) (node : Node) (hlive : st.userData promise = some s)
    (hkind : s.searchType = Janitor_Search_searchType_COMPLETE) :
    (responseCallback c st promise (some node)).userData promise
        = some { s with best := node.address }
      ∧ (responseCallback c st promise (some node)).janitor = st.janitor
      ∧ (responseCallback c st promise (some node)).events = st.events
      ∧ (responseCallback c st promise (some node)).log = st.log
      ∧ (responseCallback c st promise (some node)).fresh = st.fresh
      ∧ (responseCallback c st promise (some node)).sessionKeys = st.sessionKeys
      ∧ ∀ p, p ≠ promise →
          (responseCallback c st promise (some node)).userData p = st.userData p := by
  rw [responseCallback_complete c st promise s node hlive hkind]
  refine ⟨userData_setSession_same st promise s _ hlive, rfl, rfl, rfl, rfl, ?_, ?_⟩
  · exact sessionKeys_setSession st promise _
  · intro p hp
    exact userData_setSession_other st p promise _ hp

/-- Witness for `complete_from_present_keeps_session`. -/
theorem complete_from_present_keeps_session_witness :
    (sampleState Janitor_Search_searchType_COMPLETE).userData 0
        = some { best := Address.zero, target := 7,
                 searchType := Janitor_Search_searchType_COMPLETE, alloc := 0 }
      ∧ (responseCallback sampleEmpty (sampleState Janitor_Search_searchType_COMPLETE) 0
          (some sampleNode)).userData 0
        = some { best := sampleNode.address, target := 7,
                 searchType := Janitor_Search_searchType_COMPLETE, alloc := 0 } :=
  ⟨by decide,
    (complete_from_present_keeps_session sampleEmpty
      (sampleState Janitor_Search_searchType_COMPLETE) 0
      { best := Address.zero, target := 7,
        searchType := Janitor_Search_searchType_COMPLETE, alloc := 0 }
      sampleNode (by decide) (by decide)).1⟩

theorem partial_ne_complete :
    Janitor_Search_searchType_PARTIAL ≠ Janitor_Search_searchType_COMPLETE := by
  decide

/-- A lookup either finds a node of positive reach or it does not. -/
theorem lookup_cases (c : Collaborators) (target : Nat) :
    (∃ n, c.lookup target = some n ∧ 0 < n.reach)
      ∨ (∀ n, c.lookup target = some n → n.reach = 0) := by
  cases h : c.lookup target with
  | none => right; intro n hn; cases hn
  | some n =>
    by_cases hr : n.reach = 0
    · right; intro m hm; cases hm; exact hr
    · left; exact ⟨n, rfl, Nat.pos_of_ne_zero hr⟩

/-- C6: for every live PARTIAL session and every notification with a present "from" node,
the session ends on that notification exactly when the routing lookup for the session's
target returns a node of reach > 0; it then decrements `searches` and frees the session's
allocator.  When the lookup returns no node or a node of reach 0, the session stays
registered with best-address-seen overwritten, the engine (`searches` included) is unchanged,
and the only collaborator call is the lookup itself: no trace, no free. -/
theorem partial_from_present_ends_iff (c : Collaborators) (st : State) (promise : Nat)
    (s : Janitor_Search) (node : Node) (hlive : st.userData promise = some s)
    (hkind : s.searchType = Janitor_Search_searchType_PARTIAL) :
    ((responseCallback c st promise (some node)).userData promise = none
        ↔ ∃ n, c.lookup s.target = some n ∧ 0 < n.reach)
      ∧ ((∃ n, c.lookup s.target = some n ∧ 0 < n.reach) →
          (responseCallback c st promise (some node)).janitor.searches
              = st.janitor.searches - 1
            ∧ (responseCallback c st promise (some node)).events
              = st.events ++ [Event.lookup s.target]
                  ++ (if node.address.path = 0 then [] else [Event.trace node.address.path])
                  ++ [Event.allocatorFree s.alloc])
      ∧ ((∀ n, c.lookup s.target = some n → n.reach = 0) →
          (responseCallback c st promise (some node)).userData promise
              = some { s with best := node.address }
            ∧ (responseCallback c st promise (some node)).janitor = st.janitor
            ∧ (responseCallback c st promise (some node)).events
              = st.events ++ [Event.lookup s.target]
            ∧ (responseCallback c st promise (some node)).log = st.log
            ∧ (responseCallback c st promise (some node)).fresh = st.fresh
            ∧ (responseCallback c st promise (some node)).sessionKeys = st.sessionKeys
            ∧ ∀ p, p ≠ promise →
                (responseCallback c st promise (some node)).userData p = st.userData p) := by
  have hk : s.searchType ≠ Janitor_Search_searchType_COMPLETE := by
    rw [hkind]; exact partial_ne_complete
  have hwait : (∀ n, c.lookup s.target = some n → n.reach = 0) →
      (responseCallback c st promise (some node)).userData promise
          = some { s with best := node.address }
        ∧ (responseCallback c st promise (some node)).janitor = st.janitor
        ∧ (responseCallback c st promise (some node)).events
          = st.events ++ [Event.lookup s.target]
        ∧ (responseCallback c st promise (some node)).log = st.log
        ∧ (responseCallback c st promise (some node)).fresh = st.fresh
        ∧ (responseCallback c st promise (some node)).sessionKeys = st.sessionKeys
        ∧ ∀ p, p ≠ promise →
            (responseCallback c st promise (some node)).userData p = st.userData p := by
    intro hz
    rw [responseCallback_waits c st promise s node hlive hk hz]
    refine ⟨?_, rfl, rfl, rfl, rfl, ?_, ?_⟩
    · rw [userData_emit]
      exact userData_setSession_same st promise s _ hlive
    · rw [sessionKeys_emit]
      exact sessionKeys_setSession st promise _
    · intro p hp
      rw [userData_emit]
      exact userData_setSession_other st p promise _ hp
  refine ⟨?_, ?_, hwait⟩
  · constructor
    · intro hend
      rcases lookup_cases c s.target with h | h
      · exact h
      · rw [(hwait h).1] at hend
        cases hend
    · rintro ⟨n, hn, hr⟩
      rw [responseCallback_aborts c st promise s node n hlive hk hn (Nat.pos_iff_ne_zero.mp hr)]
      exact endSearch_userData _ _ _
  · rintro ⟨n, hn, hr⟩
    rw [responseCallback_aborts c st promise s node n hlive hk hn (Nat.pos_iff_ne_zero.mp hr)]
    refine ⟨?_, ?_⟩
    · rw [endSearch_searches]
      rfl
    · rw [endSearch_events]
      rfl

/-- Witness for `partial_from_present_ends_iff`: a PARTIAL session whose lookup finds
nothing stays registered. -/
theorem partial_from_present_ends_iff_witness :
    (sampleState Janitor_Search_searchType_PARTIAL).userData 0
        = some { best := Address.zero, target := 7,
                 searchType := Janitor_Search_searchType_PARTIAL, alloc := 0 }
      ∧ ((responseCallback sampleEmpty (sampleState Janitor_Search_searchType_PARTIAL) 0
            (some sampleNode)).userData 0 = none
          ↔ ∃ n, sampleEmpty.lookup 7 = some n ∧ 0 < n.reach) :=
  ⟨by decide,
    (partial_from_present_ends_iff sampleEmpty (sampleState Janitor_Search_searchType_PARTIAL) 0
      { best := Address.zero, target := 7,
        searchType := Janitor_Search_searchType_PARTIAL, alloc := 0 }
      sampleNode (by decide) (by decide)).1⟩

/-! ## The launch operation and the tick, case by case -/

@[simp] theorem advance_sessions (st : State) :
    (advanceGlobalMaintainence st).sessions = st.sessions := rfl
@[simp] theorem advance_fresh (st : State) :
    (advanceGlobalMaintainence st).fresh = st.fresh := rfl
@[simp] theorem advance_events (st : State) :
    (advanceGlobalMaintainence st).events = st.events := rfl
@[simp] theorem advance_log (st : State) :
    (advanceGlobalMaintainence st).log = st.log := rfl
@[simp] theorem advance_searches (st : State) :
    (advanceGlobalMaintainence st).janitor.searches = st.janitor.searches := rfl
@[simp] theorem advance_period (st : State) :
    (advanceGlobalMaintainence st).janitor.globalMaintainenceMilliseconds
      = st.janitor.globalMaintainenceMilliseconds := rfl
@[simp] theorem advance_next (st : State) :
    (advanceGlobalMaintainence st).janitor.timeOfNextGlobalMaintainence
      = (st.janitor.timeOfNextGlobalMaintainence
          + st.janitor.globalMaintainenceMilliseconds) % 2 ^ 64 := rfl
@[simp] theorem advance_userData (st : State) (p : Nat) :
    (advanceGlobalMaintainence st).userData p = st.userData p := rfl
@[simp] theorem advance_sessionKeys (st : State) :
    (advanceGlobalMaintainence st).sessionKeys = st.sessionKeys := rfl

/-- The launch when 20 searches are in flight. -/
theorem search_full (c : Collaborators) (target : Nat) (st : State) (searchType : Int)
    (h : 20 ≤ st.janitor.searches) :
    search c target st searchType = st.say LogLine.skipping20 := by
  unfold search
  rw [if_pos h]

/-- The launch when the search runner returns NULL. -/
theorem search_declined (c : Collaborators) (target : Nat) (st : State) (searchType : Int)
    (h : st.janitor.searches < 20) (hno : c.searchRunnerSearch target = false) :
    search c target st searchType = st.declined target := by
  unfold search
  rw [if_neg (not_le.mpr h)]
  simp [hno, State.emit, State.say, State.declined]

/-- The launch when the search runner returns a promise. -/
theorem search_started (c : Collaborators) (target : Nat) (st : State) (searchType : Int)
    (h : st.janitor.searches < 20) (hyes : c.searchRunnerSearch target = true) :
    search c target st searchType = st.launched target searchType := by
  unfold search
  rw [if_neg (not_le.mpr h)]
  simp [hyes, State.emit, State.launched]

/-- The three outcomes of a launch. -/
theorem search_cases (c : Collaborators) (target : Nat) (st : State) (searchType : Int) :
    (20 ≤ st.janitor.searches ∧ search c target st searchType = st.say LogLine.skipping20)
      ∨ (st.janitor.searches < 20 ∧ c.searchRunnerSearch target = false
          ∧ search c target st searchType = st.declined target)
      ∨ (st.janitor.searches < 20 ∧ c.searchRunnerSearch target = true
          ∧ search c target st searchType = st.launched target searchType) := by
  by_cases h : 20 ≤ st.janitor.searches
  · exact Or.inl ⟨h, search_full c target st searchType h⟩
  · have h' : st.janitor.searches < 20 := not_le.mp h
    cases hs : c.searchRunnerSearch target with
    | false => exact Or.inr (Or.inl ⟨h', rfl, search_declined c target st searchType h' hs⟩)
    | true => exact Or.inr (Or.inr ⟨h', rfl, search_started c target st searchType h' hs⟩)

/-- A launch never touches the sessions that exist already. -/
theorem search_userData_other (c : Collaborators) (target : Nat) (st : State)
    (searchType : Int) (p : Nat) (hp : p ≠ st.fresh) :
    (search c target st searchType).userData p = st.userData p := by
  rcases search_cases c target st searchType with ⟨_, h⟩ | ⟨_, _, h⟩ | ⟨_, _, h⟩
  · rw [h]; rfl
  · rw [h]; rfl
  · rw [h]
    exact lookup_cons_other _ _ _ _ hp

theorem search_fresh_le (c : Collaborators) (target : Nat) (st : State) (searchType : Int) :
    st.fresh ≤ (search c target st searchType).fresh := by
  rcases search_cases c target st searchType with ⟨_, h⟩ | ⟨_, _, h⟩ | ⟨_, _, h⟩ <;> rw [h]
  · exact le_refl _
  · exact Nat.le_succ _
  · exact Nat.le_succ _

theorem search_searches_le (c : Collaborators) (target : Nat) (st : State) (searchType : Int)
    (h20 : st.janitor.searches ≤ 20) : (search c target st searchType).janitor.searches ≤ 20 := by
  rcases search_cases c target st searchType with ⟨_, h⟩ | ⟨hlt, _, h⟩ | ⟨hlt, _, h⟩ <;> rw [h]
  · exact h20
  · exact h20
  · show st.janitor.searches + 1 ≤ 20
    omega

/-- The part of a tick before the lookup leaves the engine and its sessions alone. -/
theorem chooseTarget_frame (c : Collaborators) (st : State) :
    (chooseTarget c st).2.2.janitor = st.janitor
      ∧ (chooseTarget c st).2.2.sessions = st.sessions
      ∧ (chooseTarget c st).2.2.fresh = st.fresh
      ∧ (chooseTarget c st).2.2.log = st.log := by
  unfold chooseTarget
  cases c.getNode with
  | none => exact ⟨rfl, rfl, rfl, rfl⟩
  | some node =>
    by_cases hr : node.reach = 0
    · simp only [hr, if_true]
      exact ⟨rfl, rfl, rfl, rfl⟩
    · simp only [hr, if_false]
      exact ⟨rfl, rfl, rfl, rfl⟩

/-- The state in which a tick on a non-empty table makes its launch decision: the random
node has been pinged and the lookup for the chosen target has been made. -/
theorem beforeLaunch_frame (c : Collaborators) (st : State) :
    (beforeLaunch c st).janitor = st.janitor
      ∧ (beforeLaunch c st).sessions = st.sessions
      ∧ (beforeLaunch c st).fresh = st.fresh
      ∧ (beforeLaunch c st).log = st.log :=
  chooseTarget_frame c st

/-- A tick on an empty table, not after the scheduled time. -/
theorem maintanenceCycle_empty_early (c : Collaborators) (st : State)
    (h0 : c.nodeStoreSize = 0) (hn : c.now ≤ st.janitor.timeOfNextGlobalMaintainence) :
    maintanenceCycle c st = st := by
  unfold maintanenceCycle
  rw [if_pos h0, if_neg (not_lt.mpr hn)]

/-- A tick on an empty table, after the scheduled time. -/
theorem maintanenceCycle_empty_late (c : Collaborators) (st : State)
    (h0 : c.nodeStoreSize = 0) (hn : st.janitor.timeOfNextGlobalMaintainence < c.now) :
    maintanenceCycle c st = advanceGlobalMaintainence (st.say LogLine.warnNoNodes) := by
  unfold maintanenceCycle
  rw [if_pos h0, if_pos hn]

/-- A tick on a non-empty table whose lookup finds no node or one of reach 0. -/
theorem maintanenceCycle_sparse (c : Collaborators) (st : State)
    (h0 : c.nodeStoreSize ≠ 0)
    (hz : nullOrZeroReach (c.lookup (chooseTarget c st).2.1) = true) :
    maintanenceCycle c st
      = search c (chooseTarget c st).2.1 (beforeLaunch c st) (chooseTarget c st).1 := by
  unfold maintanenceCycle
  rw [if_neg h0]
  simp only [hz, if_true]

/-- A tick on a non-empty table whose lookup finds a node of positive reach, after the
scheduled time. -/
theorem maintanenceCycle_global (c : Collaborators) (st : State)
    (h0 : c.nodeStoreSize ≠ 0)
    (hz : nullOrZeroReach (c.lookup (chooseTarget c st).2.1) = false)
    (hn : st.janitor.timeOfNextGlobalMaintainence < c.now) :
    maintanenceCycle c st
      = advanceGlobalMaintainence
          (search c (chooseTarget c st).2.1 (beforeLaunch c st)
            Janitor_Search_searchType_COMPLETE) := by
  have hn' : c.now > (beforeLaunch c st).janitor.timeOfNextGlobalMaintainence := by
    rw [(beforeLaunch_frame c st).1]
    exact hn
  unfold maintanenceCycle
  rw [if_neg h0]
  simp only [hz, Bool.false_eq_true, if_false, hn', if_true]

/-- A tick on a non-empty table whose lookup finds a node of positive reach, not after the
scheduled time. -/
theorem maintanenceCycle_covered (c : Collaborators) (st : State)
    (h0 : c.nodeStoreSize ≠ 0)
    (hz : nullOrZeroReach (c.lookup (chooseTarget c st).2.1) = false)
    (hn : c.now ≤ st.janitor.timeOfNextGlobalMaintainence) :
    maintanenceCycle c st = beforeLaunch c st := by
  have hn' : ¬ c.now > (beforeLaunch c st).janitor.timeOfNextGlobalMaintainence := by
    rw [(beforeLaunch_frame c st).1]
    exact not_lt.mpr hn
  unfold maintanenceCycle
  rw [if_neg h0]
  simp only [hz, Bool.false_eq_true, if_false, hn']

/-- The outcomes of a tick: nothing, the warning, or the pre-launch part followed by nothing,
by a launch, or by a launch and the advance of the global schedule. -/
theorem maintanenceCycle_cases (c : Collaborators) (st : State) :
    maintanenceCycle c st = st
      ∨ maintanenceCycle c st = advanceGlobalMaintainence (st.say LogLine.warnNoNodes)
      ∨ maintanenceCycle c st = beforeLaunch c st
      ∨ (∃ target searchType,
          maintanenceCycle c st = search c target (beforeLaunch c st) searchType)
      ∨ (∃ target searchType,
          maintanenceCycle c st
            = advanceGlobalMaintainence (search c target (beforeLaunch c st) searchType)) := by
  by_cases h0 : c.nodeStoreSize = 0
  · rcases Nat.lt_or_ge st.janitor.timeOfNextGlobalMaintainence c.now with hn | hn
    · exact Or.inr (Or.inl (maintanenceCycle_empty_late c st h0 hn))
    · exact Or.inl (maintanenceCycle_empty_early c st h0 hn)
  · cases hz : nullOrZeroReach (c.lookup (chooseTarget c st).2.1) with
    | true =>
      exact Or.inr (Or.inr (Or.inr (Or.inl ⟨_, _, maintanenceCycle_sparse c st h0 hz⟩)))
    | false =>
      rcases Nat.lt_or_ge st.janitor.timeOfNextGlobalMaintainence c.now with hn | hn
      · exact Or.inr (Or.inr (Or.inr (Or.inr ⟨_, _, maintanenceCycle_global c st h0 hz hn⟩)))
      · exact Or.inr (Or.inr (Or.inl (maintanenceCycle_covered c st h0 hz hn)))

theorem tracesOf_append (a b : List Event) : tracesOf (a ++ b) = tracesOf a ++ tracesOf b := by
  induction a with
  | nil => rfl
  | cons e a ih =>
    cases e <;> simp [tracesOf, ih]

/-! ## Sessions kept and sessions ended -/

/-- A promise is live exactly when it is among the session keys. -/
theorem userData_eq_none_iff (st : State) (p : Nat) :
    st.userData p = none ↔ p ∉ st.sessionKeys := by
  unfold State.userData State.sessionKeys
  rw [List.lookup_eq_none_iff]
  simp only [List.mem_map, not_exists, not_and, bne_iff_ne, ne_eq]
  constructor
  · intro h x hx hp
    exact h x hx hp.symm
  · intro h x hx hp
    exact h x hx hp.symm

/-- Dropping a live promise shortens the list of sessions. -/
theorem length_drop_lt (st : State) (p : Nat) (s : Janitor_Search)
    (hlive : st.userData p = some s) :
    (st.sessions.filter (fun q => q.1 ≠ p)).length < st.sessions.length := by
  rw [List.length_filter_lt_length_iff_exists]
  have hmem : p ∈ st.sessionKeys := by
    by_contra hn
    rw [(userData_eq_none_iff st p).mpr hn] at hlive
    cases hlive
  obtain ⟨x, hx, hxp⟩ := List.mem_map.mp hmem
  exact ⟨x, hx, by simp [hxp]⟩

/-- The two ways a notification is handled.  Either the session is kept: the engine, the
set of live promises and every other session are as before.  Or a live session is ended:
`searches` is decremented and the promise is dropped. -/
theorem responseCallback_kept_or_ended (c : Collaborators) (st : State) (promise : Nat)
    (fromNode : Option Node) :
    ((responseCallback c st promise fromNode).janitor = st.janitor
        ∧ (responseCallback c st promise fromNode).sessionKeys = st.sessionKeys
        ∧ (responseCallback c st promise fromNode).fresh = st.fresh
        ∧ tracesOf (responseCallback c st promise fromNode).events = tracesOf st.events
        ∧ ∀ p, p ≠ promise →
            (responseCallback c st promise fromNode).userData p = st.userData p)
      ∨ (∃ s st0, st.userData promise = some s
          ∧ st0.janitor = st.janitor ∧ st0.sessionKeys = st.sessionKeys
          ∧ st0.fresh = st.fresh
          ∧ (∀ p, p ≠ promise → st0.userData p = st.userData p)
          ∧ tracesOf st0.events = tracesOf st.events
          ∧ st0.userData promise
              = some (match fromNode with
                      | some node => { s with best := node.address }
                      | none => s)
          ∧ responseCallback c st promise fromNode
              = endSearch st0 promise (match fromNode with
                                       | some node => { s with best := node.address }
                                       | none => s)) := by
  cases hlive : st.userData promise with
  | none =>
    left
    rw [responseCallback_dead c st promise fromNode hlive]
    exact ⟨rfl, rfl, rfl, rfl, fun _ _ => rfl⟩
  | some s =>
    cases fromNode with
    | none =>
      right
      exact ⟨s, st, rfl, rfl, rfl, rfl, fun _ _ => rfl, rfl, hlive,
        responseCallback_none c st promise s hlive⟩
    | some node =>
      by_cases hk : s.searchType = Janitor_Search_searchType_COMPLETE
      · left
        rw [responseCallback_complete c st promise s node hlive hk]
        exact ⟨rfl, sessionKeys_setSession st promise _, rfl, rfl,
          fun p hp => userData_setSession_other st p promise _ hp⟩
      · rcases lookup_cases c s.target with ⟨n, hn, hr⟩ | hz
        · right
          refine ⟨s, ((st.setSession promise { s with best := node.address }).emit
              (Event.lookup s.target)).say LogLine.foundNearbyTarget, rfl, rfl, ?_, rfl, ?_, ?_,
              ?_, ?_⟩
          · exact sessionKeys_setSession st promise _
          · intro p hp
            exact userData_setSession_other st p promise _ hp
          · show tracesOf (st.events ++ [Event.lookup s.target]) = tracesOf st.events
            rw [tracesOf_append]
            simp [tracesOf]
          · exact userData_setSession_same st promise s _ hlive
          · exact responseCallback_aborts c st promise s node n hlive hk hn
              (Nat.pos_iff_ne_zero.mp hr)
        · left
          rw [responseCallback_waits c st promise s node hlive hk hz]
          refine ⟨rfl, sessionKeys_setSession st promise _, rfl, ?_,
            fun p hp => userData_setSession_other st p promise _ hp⟩
          show tracesOf (st.events ++ [Event.lookup s.target]) = tracesOf st.events
          rw [tracesOf_append]
          simp [tracesOf]

/-- A kept session is still live, and a notification never revives a promise. -/
theorem responseCallback_searches (c : Collaborators) (st : State) (promise : Nat)
    (fromNode : Option Node) :
    ((responseCallback c st promise fromNode).sessionKeys = st.sessionKeys
        ∧ (responseCallback c st promise fromNode).janitor = st.janitor)
      ∨ (st.userData promise ≠ none
          ∧ (responseCallback c st promise fromNode).userData promise = none
          ∧ (responseCallback c st promise fromNode).sessions.length < st.sessions.length
          ∧ (responseCallback c st promise fromNode).janitor
              = { st.janitor with searches := st.janitor.searches - 1 }) := by
  rcases responseCallback_kept_or_ended c st promise fromNode with
    ⟨hj, hk, _, _, _⟩ | ⟨s, st0, hlive, hj, hk, _, _, _, hlive0, heq⟩
  · exact Or.inl ⟨hk, hj⟩
  · right
    rw [heq]
    refine ⟨by rw [hlive]; exact Option.some_ne_none s, endSearch_userData _ _ _, ?_, ?_⟩
    · rw [endSearch_sessions]
      have hlen : st0.sessions.length = st.sessions.length := by
        have := congrArg List.length hk
        simpa [State.sessionKeys] using this
      rw [← hlen]
      exact length_drop_lt st0 promise _ hlive0
    · rw [endSearch_janitor, hj]

/-- What a launch does to the sessions and to the counter: nothing (skipped or declined), or
one new session under the fresh promise and one more search in flight. -/
theorem search_kept_or_launched (c : Collaborators) (target : Nat) (st : State)
    (searchType : Int) :
    ((search c target st searchType).sessions = st.sessions
        ∧ (search c target st searchType).janitor = st.janitor
        ∧ st.fresh ≤ (search c target st searchType).fresh)
      ∨ (st.janitor.searches < 20
          ∧ (search c target st searchType).sessions
              = (st.fresh, { best := Address.zero, target := target, searchType := searchType,
                             alloc := st.fresh }) :: st.sessions
          ∧ (search c target st searchType).janitor
              = { st.janitor with searches := st.janitor.searches + 1 }
          ∧ (search c target st searchType).fresh = st.fresh + 1) := by
  rcases search_cases c target st searchType with ⟨_, h⟩ | ⟨_, _, h⟩ | ⟨hlt, _, h⟩ <;> rw [h]
  · exact Or.inl ⟨rfl, rfl, le_refl _⟩
  · exact Or.inl ⟨rfl, rfl, Nat.le_succ _⟩
  · exact Or.inr ⟨hlt, rfl, rfl, rfl⟩

/-- What a tick does to the sessions and to the counter. -/
theorem maintanenceCycle_kept_or_launched (c : Collaborators) (st : State) :
    ((maintanenceCycle c st).sessions = st.sessions
        ∧ (maintanenceCycle c st).janitor.searches = st.janitor.searches
        ∧ st.fresh ≤ (maintanenceCycle c st).fresh)
      ∨ (∃ target searchType, st.janitor.searches < 20
          ∧ (maintanenceCycle c st).sessions
              = (st.fresh, { best := Address.zero, target := target, searchType := searchType,
                             alloc := st.fresh }) :: st.sessions
          ∧ (maintanenceCycle c st).janitor.searches = st.janitor.searches + 1
          ∧ (maintanenceCycle c st).fresh = st.fresh + 1) := by
  obtain ⟨hj, hs, hf, _⟩ := beforeLaunch_frame c st
  rcases maintanenceCycle_cases c st with h | h | h | ⟨t, ty, h⟩ | ⟨t, ty, h⟩ <;> rw [h]
  · exact Or.inl ⟨rfl, rfl, le_refl _⟩
  · exact Or.inl ⟨rfl, rfl, le_refl _⟩
  · exact Or.inl ⟨hs, by rw [hj], by rw [hf]⟩
  · rcases search_kept_or_launched c t (beforeLaunch c st) ty with
      ⟨h1, h2, h3⟩ | ⟨h0, h1, h2, h3⟩
    · exact Or.inl ⟨by rw [h1, hs], by rw [h2, hj], by rw [← hf]; exact h3⟩
    · right
      refine ⟨t, ty, by rw [← hj]; exact h0, ?_, ?_, ?_⟩
      · rw [h1, hs, hf]
      · rw [h2, hj]
      · rw [h3, hf]
  · rcases search_kept_or_launched c t (beforeLaunch c st) ty with
      ⟨h1, h2, h3⟩ | ⟨h0, h1, h2, h3⟩
    · refine Or.inl ⟨?_, ?_, ?_⟩
      · rw [advance_sessions, h1, hs]
      · rw [advance_searches, h2, hj]
      · rw [advance_fresh, ← hf]; exact h3
    · right
      refine ⟨t, ty, by rw [← hj]; exact h0, ?_, ?_, ?_⟩
      · rw [advance_sessions, h1, hs, hf]
      · rw [advance_searches, h2, hj]
      · rw [advance_fresh, h3, hf]

/-- No input raises `searches` above 20. -/
theorem step_searches_le (st : State) (i : Input) (h : st.janitor.searches ≤ 20) :
    (step st i).janitor.searches ≤ 20 := by
  cases i with
  | tick c =>
    show (maintanenceCycle c st).janitor.searches ≤ 20
    rcases maintanenceCycle_kept_or_launched c st with ⟨_, h1, _⟩ | ⟨_, _, h0, _, h1, _⟩
    · rw [h1]; exact h
    · rw [h1]; omega
  | notify c promise fromNode =>
    show (responseCallback c st promise fromNode).janitor.searches ≤ 20
    rcases responseCallback_searches c st promise fromNode with ⟨_, h1⟩ | ⟨_, _, _, h1⟩
    · rw [h1]; exact h
    · rw [h1]
      show st.janitor.searches - 1 ≤ 20
      omega

theorem run_searches_le (inputs : List Input) (st : State) (h : st.janitor.searches ≤ 20) :
    (run st inputs).janitor.searches ≤ 20 := by
  induction inputs generalizing st with
  | nil => exact h
  | cons i inputs ih => exact ih (step st i) (step_searches_le st i h)

/-- An input that neither launches nor ends a session leaves `searches` unchanged. -/
theorem step_quiet_searches (st : State) (i : Input)
    (h : (step st i).sessionKeys = st.sessionKeys) :
    (step st i).janitor.searches = st.janitor.searches := by
  have hlen : (step st i).sessions.length = st.sessions.length := by
    have := congrArg List.length h
    simpa [State.sessionKeys] using this
  cases i with
  | tick c =>
    rcases maintanenceCycle_kept_or_launched c st with ⟨_, h1, _⟩ | ⟨_, _, _, h1, _, _⟩
    · exact h1
    · change (maintanenceCycle c st).sessions.length = st.sessions.length at hlen
      rw [h1] at hlen
      simp at hlen
  | notify c promise fromNode =>
    rcases responseCallback_searches c st promise fromNode with ⟨_, h1⟩ | ⟨_, _, h1, _⟩
    · show (responseCallback c st promise fromNode).janitor.searches = st.janitor.searches
      rw [h1]
    · change (responseCallback c st promise fromNode).sessions.length = st.sessions.length
        at hlen
      omega

theorem run_quiet (inputs : List Input) (st : State) (h : quiet st inputs) :
    (run st inputs).janitor.searches = st.janitor.searches
      ∧ (run st inputs).sessionKeys = st.sessionKeys := by
  induction inputs generalizing st with
  | nil => exact ⟨rfl, rfl⟩
  | cons i inputs ih =>
    obtain ⟨h1, h2⟩ := h
    obtain ⟨ih1, ih2⟩ := ih (step st i) h2
    exact ⟨ih1.trans (step_quiet_searches st i h1), ih2.trans h1⟩

/-! ## The fan-out bound and the accounting of `searches` -/

/-- C2: with 20 or more searches in flight the launch operation only writes a debug line.
It makes no call to the search runner (the collaborator calls are unchanged), creates no
session, and leaves the engine, `searches` included, as it was.  Consequently `searches` is
at most 20 in every state reached from a freshly constructed engine by any sequence of
ticks and notifications. -/
theorem search_fanout_bound :
    (∀ (c : Collaborators) (target : Nat) (st : State) (searchType : Int),
        20 ≤ st.janitor.searches →
          (search c target st searchType).events = st.events
            ∧ (search c target st searchType).sessions = st.sessions
            ∧ (search c target st searchType).janitor = st.janitor
            ∧ (search c target st searchType).fresh = st.fresh)
      ∧ (∀ (period now : Nat) (inputs : List Input),
          (run (Janitor_new period now) inputs).janitor.searches ≤ 20) := by
  constructor
  · intro c target st searchType h
    rw [search_full c target st searchType h]
    exact ⟨rfl, rfl, rfl, rfl⟩
  · intro period now inputs
    exact run_searches_le inputs _ (show (0 : Int) ≤ 20 by decide)

/-- Witness for `search_fanout_bound`: a launch attempted with 20 searches in flight. -/
theorem search_fanout_bound_witness :
    20 ≤ sampleFull.janitor.searches
      ∧ (search sampleSparse 77 sampleFull Janitor_Search_searchType_COMPLETE).events
          = sampleFull.events
      ∧ (search sampleSparse 77 sampleFull Janitor_Search_searchType_COMPLETE).sessions
          = sampleFull.sessions
      ∧ (search sampleSparse 77 sampleFull Janitor_Search_searchType_COMPLETE).janitor
          = sampleFull.janitor
      ∧ (search sampleSparse 77 sampleFull Janitor_Search_searchType_COMPLETE).fresh
          = sampleFull.fresh :=
  ⟨by decide,
    search_fanout_bound.1 sampleSparse 77 sampleFull Janitor_Search_searchType_COMPLETE
      (by decide)⟩

/-- C3: a launch below the bound that the search runner accepts adds exactly one to
`searches`; a notification that ends a session (live before, gone after) subtracts exactly
one; so a launch, any inputs that neither launch nor end a session, and then the end of the
session the launch created leave `searches` at its value before the launch. -/
theorem searches_counter_accounting :
    (∀ (c : Collaborators) (target : Nat) (st : State) (searchType : Int),
        st.janitor.searches < 20 → c.searchRunnerSearch target = true →
          (search c target st searchType).janitor.searches = st.janitor.searches + 1)
      ∧ (∀ (c : Collaborators) (st : State) (promise : Nat) (fromNode : Option Node),
          st.userData promise ≠ none →
          (responseCallback c st promise fromNode).userData promise = none →
            (responseCallback c st promise fromNode).janitor.searches
              = st.janitor.searches - 1)
      ∧ (∀ (c : Collaborators) (target : Nat) (st : State) (searchType : Int)
          (mid : List Input) (c2 : Collaborators) (fromNode : Option Node),
          st.janitor.searches < 20 → c.searchRunnerSearch target = true →
          quiet (search c target st searchType) mid →
          (responseCallback c2 (run (search c target st searchType) mid) st.fresh
              fromNode).userData st.fresh = none →
            (responseCallback c2 (run (search c target st searchType) mid) st.fresh
              fromNode).janitor.searches = st.janitor.searches) := by
  have hend : ∀ (c : Collaborators) (st : State) (promise : Nat) (fromNode : Option Node),
      st.userData promise ≠ none →
      (responseCallback c st promise fromNode).userData promise = none →
        (responseCallback c st promise fromNode).janitor.searches
          = st.janitor.searches - 1 := by
    intro c st promise fromNode hlive hgone
    rcases responseCallback_searches c st promise fromNode with ⟨hk, _⟩ | ⟨_, _, _, hj⟩
    · exfalso
      apply hlive
      rw [userData_eq_none_iff] at hgone ⊢
      rw [← hk]
      exact hgone
    · rw [hj]
  refine ⟨?_, hend, ?_⟩
  · intro c target st searchType h hyes
    rw [search_started c target st searchType h hyes]
    rfl
  · intro c target st searchType mid c2 fromNode h hyes hq hgone
    obtain ⟨hs, hk⟩ := run_quiet mid _ hq
    have hlive : (run (search c target st searchType) mid).userData st.fresh ≠ none := by
      rw [Ne, userData_eq_none_iff, hk, search_started c target st searchType h hyes]
      simp [State.sessionKeys, State.launched]
    rw [hend c2 _ st.fresh fromNode hlive hgone, hs,
      search_started c target st searchType h hyes]
    show st.janitor.searches + 1 - 1 = st.janitor.searches
    omega

/-- Witness for `searches_counter_accounting`: a fresh engine launches a COMPLETE search, the
session hears from a node (which does not end it) and then ends. -/
theorem searches_counter_accounting_witness :
    (Janitor_new 1000 0).janitor.searches < 20
      ∧ sampleSparse.searchRunnerSearch 77 = true
      ∧ quiet (search sampleSparse 77 (Janitor_new 1000 0) Janitor_Search_searchType_COMPLETE)
          [Input.notify sampleEmpty 0 (some sampleNode)]
      ∧ (responseCallback sampleEmpty
          (run (search sampleSparse 77 (Janitor_new 1000 0) Janitor_Search_searchType_COMPLETE)
            [Input.notify sampleEmpty 0 (some sampleNode)])
          (Janitor_new 1000 0).fresh none).userData (Janitor_new 1000 0).fresh = none
      ∧ (responseCallback sampleEmpty
          (run (search sampleSparse 77 (Janitor_new 1000 0) Janitor_Search_searchType_COMPLETE)
            [Input.notify sampleEmpty 0 (some sampleNode)])
          (Janitor_new 1000 0).fresh none).janitor.searches
          = (Janitor_new 1000 0).janitor.searches :=
  have hq : quiet
      (search sampleSparse 77 (Janitor_new 1000 0) Janitor_Search_searchType_COMPLETE)
      [Input.notify sampleEmpty 0 (some sampleNode)] := by
    unfold quiet
    exact ⟨by decide, trivial⟩
  ⟨by decide, by decide, hq, by decide,
    searches_counter_accounting.2.2 sampleSparse 77 (Janitor_new 1000 0)
      Janitor_Search_searchType_COMPLETE [Input.notify sampleEmpty 0 (some sampleNode)]
      sampleEmpty none (by decide) (by decide) hq (by decide)⟩

/-! ## The trace requested at the end of a session -/

/-- C4, refuted as stated: a COMPLETE session (promise 0 of `sampleState`) records the
address of a node whose path is 0 and then ends on a notification without a node.  The
address was recorded, the session ended, and no trace was requested. -/
theorem trace_on_end_counterexample :
    (responseCallback sampleEmpty (sampleState Janitor_Search_searchType_COMPLETE) 0
        (some sampleZeroPathNode)).userData 0
        = some { best := sampleZeroPathNode.address, target := 7,
                 searchType := Janitor_Search_searchType_COMPLETE, alloc := 0 }
      ∧ (responseCallback sampleEmpty
          (responseCallback sampleEmpty (sampleState Janitor_Search_searchType_COMPLETE) 0
            (some sampleZeroPathNode)) 0 none).userData 0 = none
      ∧ (responseCallback sampleEmpty
          (responseCallback sampleEmpty (sampleState Janitor_Search_searchType_COMPLETE) 0
            (some sampleZeroPathNode)) 0 none).events = [Event.allocatorFree 0]
      ∧ tracesOf (responseCallback sampleEmpty
          (responseCallback sampleEmpty (sampleState Janitor_Search_searchType_COMPLETE) 0
            (some sampleZeroPathNode)) 0 none).events = [] := by
  decide

/-- C4, amended: when a notification ends a live session, let `best` be the session's
best-address-seen at that moment (the address of the notification's "from" node if it has
one, the stored one otherwise).  If the path of `best` is not 0, ending the session requests
exactly one trace, for that path; if it is 0, it requests none. -/
theorem end_traces_recorded_path (c : Collaborators) (st : State) (promise : Nat)
    (s : Janitor_Search) (fromNode : Option Node) (hlive : st.userData promise = some s)
    (hend : (responseCallback c st promise fromNode).userData promise = none) :
    tracesOf (responseCallback c st promise fromNode).events
      = tracesOf st.events
          ++ (if (match fromNode with
                  | some node => node.address
                  | none => s.best).path = 0 then []
              else [(match fromNode with
                     | some node => node.address
                     | none => s.best).path]) := by
  rcases responseCallback_kept_or_ended c st promise fromNode with
    ⟨_, hk, _, _, _⟩ | ⟨s', st0, hlive', _, _, _, _, htr, _, heq⟩
  · exfalso
    rw [userData_eq_none_iff, hk, ← userData_eq_none_iff, hlive] at hend
    cases hend
  · rw [hlive] at hlive'
    cases hlive'
    rw [heq, endSearch_events, tracesOf_append, tracesOf_append, htr]
    cases fromNode with
    | none =>
      by_cases hp : s.best.path = 0 <;> simp [hp, tracesOf]
    | some node =>
      by_cases hp : node.address.path = 0 <;> simp [hp, tracesOf]

/-- Witness for `end_traces_recorded_path`: a session that recorded path 5 ends and
requests the trace of path 5. -/
theorem end_traces_recorded_path_witness :
    (responseCallback sampleEmpty (sampleState Janitor_Search_searchType_COMPLETE) 0
        (some sampleNode)).userData 0
        = some { best := sampleNode.address, target := 7,
                 searchType := Janitor_Search_searchType_COMPLETE, alloc := 0 }
      ∧ (responseCallback sampleEmpty
          (responseCallback sampleEmpty (sampleState Janitor_Search_searchType_COMPLETE) 0
            (some sampleNode)) 0 none).userData 0 = none
      ∧ tracesOf (responseCallback sampleEmpty
          (responseCallback sampleEmpty (sampleState Janitor_Search_searchType_COMPLETE) 0
            (some sampleNode)) 0 none).events
          = tracesOf (responseCallback sampleEmpty
              (sampleState Janitor_Search_searchType_COMPLETE) 0 (some sampleNode)).events
            ++ [5] :=
  ⟨by decide, by decide,
    end_traces_recorded_path sampleEmpty
      (responseCallback sampleEmpty (sampleState Janitor_Search_searchType_COMPLETE) 0
        (some sampleNode)) 0
      { best := sampleNode.address, target := 7,
        searchType := Janitor_Search_searchType_COMPLETE, alloc := 0 }
      none (by decide) (by decide)⟩

/-- An input that is not a notification for promise `p` leaves the session of `p` alone,
provided `p` was handed out already. -/
theorem step_frame (st : State) (i : Input) (p : Nat) (hp : p < st.fresh)
    (hi : i.addressed ≠ some p) :
    (step st i).userData p = st.userData p ∧ p < (step st i).fresh := by
  cases i with
  | tick c =>
    show (maintanenceCycle c st).userData p = st.userData p ∧ p < (maintanenceCycle c st).fresh
    rcases maintanenceCycle_kept_or_launched c st with ⟨h1, _, h3⟩ | ⟨_, _, _, h1, _, h3⟩
    · exact ⟨by unfold State.userData; rw [h1], lt_of_lt_of_le hp h3⟩
    · refine ⟨?_, by rw [h3]; exact Nat.lt_succ_of_lt hp⟩
      unfold State.userData
      rw [h1]
      exact lookup_cons_other _ _ _ _ (Nat.ne_of_lt hp)
  | notify c promise fromNode =>
    have hne : p ≠ promise := by
      intro h
      apply hi
      rw [h]
      rfl
    show (responseCallback c st promise fromNode).userData p = st.userData p
      ∧ p < (responseCallback c st promise fromNode).fresh
    rcases responseCallback_kept_or_ended c st promise fromNode with
      ⟨_, _, hf, _, hu⟩ | ⟨_, st0, _, _, _, hf, hu, _, _, heq⟩
    · exact ⟨hu p hne, by rw [hf]; exact hp⟩
    · rw [heq, endSearch_userData_other _ _ _ _ hne, endSearch_fresh, hf]
      exact ⟨hu p hne, hp⟩

theorem run_frame (inputs : List Input) (st : State) (p : Nat) (hp : p < st.fresh)
    (hi : ∀ i ∈ inputs, i.addressed ≠ some p) :
    (run st inputs).userData p = st.userData p ∧ p < (run st inputs).fresh := by
  induction inputs generalizing st with
  | nil => exact ⟨rfl, hp⟩
  | cons i inputs ih =>
    obtain ⟨h1, h2⟩ := step_frame st i p hp (hi i (List.mem_cons_self _ _))
    obtain ⟨h3, h4⟩ := ih (step st i) h2 (fun j hj => hi j (List.mem_cons_of_mem _ hj))
    exact ⟨h3.trans h1, h4⟩

/-- C5: a session created by the launch operation starts with an all-zero
best-address-seen, and keeps it while it receives no notification (ticks and notifications
for other sessions may happen meanwhile).  The notification without a "from" node that then
ends it requests no trace: the only collaborator call is the release of the session's
allocator, `searches` is decremented by one, the promise is dropped, and the rest of the
engine and the other sessions are unchanged. -/
theorem untouched_session_ends_without_trace (c : Collaborators) (target : Nat) (st : State)
    (searchType : Int) (mid : List Input) (c2 : Collaborators)
    (hroom : st.janitor.searches < 20) (haccept : c.searchRunnerSearch target = true)
    (hmid : ∀ i ∈ mid, i.addressed ≠ some st.fresh) :
    (run (search c target st searchType) mid).userData st.fresh
        = some { best := Address.zero, target := target, searchType := searchType,
                 alloc := st.fresh }
      ∧ (responseCallback c2 (run (search c target st searchType) mid) st.fresh none).events
          = (run (search c target st searchType) mid).events ++ [Event.allocatorFree st.fresh]
      ∧ (responseCallback c2 (run (search c target st searchType) mid) st.fresh none).janitor
          = { (run (search c target st searchType) mid).janitor with
              searches := (run (search c target st searchType) mid).janitor.searches - 1 }
      ∧ (responseCallback c2 (run (search c target st searchType) mid) st.fresh
          none).userData st.fresh = none
      ∧ (responseCallback c2 (run (search c target st searchType) mid) st.fresh none).fresh
          = (run (search c target st searchType) mid).fresh
      ∧ ∀ p, p ≠ st.fresh →
          (responseCallback c2 (run (search c target st searchType) mid) st.fresh
            none).userData p = (run (search c target st searchType) mid).userData p := by
  have hstart := search_started c target st searchType hroom haccept
  have hlive : (run (search c target st searchType) mid).userData st.fresh
      = some { best := Address.zero, target := target, searchType := searchType,
               alloc := st.fresh } := by
    rw [(run_frame mid (search c target st searchType) st.fresh
      (by rw [hstart]; exact Nat.lt_succ_self _) hmid).1, hstart]
    exact List.lookup_cons_self
  refine ⟨hlive, ?_⟩
  rw [responseCallback_none c2 _ st.fresh _ hlive]
  refine ⟨?_, endSearch_janitor _ _ _, endSearch_userData _ _ _, endSearch_fresh _ _ _, ?_⟩
  · rw [endSearch_events]
    simp [Address.zero]
  · intro p hp
    exact endSearch_userData_other _ _ _ _ hp

/-- Witness for `untouched_session_ends_without_trace`: a fresh engine launches a PARTIAL
search, a tick on an empty table passes, and the session ends without having heard from
any node. -/
theorem untouched_session_ends_without_trace_witness :
    (Janitor_new 1000 0).janitor.searches < 20
      ∧ sampleSparse.searchRunnerSearch 77 = true
      ∧ (∀ i ∈ [Input.tick sampleEmpty], i.addressed ≠ some (Janitor_new 1000 0).fresh)
      ∧ (responseCallback sampleEmpty
          (run (search sampleSparse 77 (Janitor_new 1000 0) Janitor_Search_searchType_PARTIAL)
            [Input.tick sampleEmpty]) (Janitor_new 1000 0).fresh none).events
          = (run (search sampleSparse 77 (Janitor_new 1000 0) Janitor_Search_searchType_PARTIAL)
              [Input.tick sampleEmpty]).events
            ++ [Event.allocatorFree (Janitor_new 1000 0).fresh] :=
  have hmid : ∀ i ∈ [Input.tick sampleEmpty], i.addressed ≠ some (Janitor_new 1000 0).fresh := by
    intro i hi
    rw [List.mem_singleton] at hi
    rw [hi]
    decide
  ⟨by decide, by decide, hmid,
    (untouched_session_ends_without_trace sampleSparse 77 (Janitor_new 1000 0)
      Janitor_Search_searchType_PARTIAL [Input.tick sampleEmpty] sampleEmpty
      (by decide) (by decide) hmid).2.1⟩

/-! ## Ticks on an empty table -/

/-- C7: a tick performed while the node store has size 0 calls no collaborator (no ping, no
request for a random node, no lookup, no launch), creates and ends no session, and leaves
`searches` and every field of the engine other than `timeOfNextGlobalMaintainence` as they
were. -/
theorem tick_on_empty_table_frame (c : Collaborators) (st : State)
    (h0 : c.nodeStoreSize = 0) :
    (maintanenceCycle c st).events = st.events
      ∧ (maintanenceCycle c st).sessions = st.sessions
      ∧ (maintanenceCycle c st).fresh = st.fresh
      ∧ (maintanenceCycle c st).janitor.searches = st.janitor.searches
      ∧ (maintanenceCycle c st).janitor
          = { st.janitor with
              timeOfNextGlobalMaintainence :=
                (maintanenceCycle c st).janitor.timeOfNextGlobalMaintainence } := by
  rcases Nat.lt_or_ge st.janitor.timeOfNextGlobalMaintainence c.now with hn | hn
  · rw [maintanenceCycle_empty_late c st h0 hn]
    exact ⟨rfl, rfl, rfl, rfl, rfl⟩
  · rw [maintanenceCycle_empty_early c st h0 hn]
    exact ⟨rfl, rfl, rfl, rfl, rfl⟩

/-- Witness for `tick_on_empty_table_frame`. -/
theorem tick_on_empty_table_frame_witness :
    sampleEmpty.nodeStoreSize = 0
      ∧ (maintanenceCycle sampleEmpty (sampleState Janitor_Search_searchType_PARTIAL)).events
          = (sampleState Janitor_Search_searchType_PARTIAL).events :=
  ⟨by decide,
    (tick_on_empty_table_frame sampleEmpty (sampleState Janitor_Search_searchType_PARTIAL)
      (by decide)).1⟩

/-- C9: on an empty table the warning is logged exactly when `now` is strictly greater than
`timeOfNextGlobalMaintainence`.  When `now` is not greater, the tick changes nothing at all;
in particular the first tick at the very time the constructor stored changes nothing.  When
`now` is greater, the warning is the one line logged and the new
`timeOfNextGlobalMaintainence` is the old one plus the period modulo `2 ^ 64`; `now` does
not enter the new value. -/
theorem empty_table_warning_boundary (c : Collaborators) (st : State) (period : Nat)
    (h0 : c.nodeStoreSize = 0) :
    ((maintanenceCycle c st).log = st.log ++ [LogLine.warnNoNodes]
        ↔ st.janitor.timeOfNextGlobalMaintainence < c.now)
      ∧ (c.now ≤ st.janitor.timeOfNextGlobalMaintainence → maintanenceCycle c st = st)
      ∧ (st.janitor.timeOfNextGlobalMaintainence < c.now →
          (maintanenceCycle c st).log = st.log ++ [LogLine.warnNoNodes]
            ∧ (maintanenceCycle c st).janitor.timeOfNextGlobalMaintainence
                = (st.janitor.timeOfNextGlobalMaintainence
                    + st.janitor.globalMaintainenceMilliseconds) % 2 ^ 64)
      ∧ (Janitor_new period c.now).janitor.timeOfNextGlobalMaintainence = c.now
      ∧ maintanenceCycle c (Janitor_new period c.now) = Janitor_new period c.now := by
  refine ⟨?_, maintanenceCycle_empty_early c st h0, ?_, rfl,
    maintanenceCycle_empty_early c _ h0 (le_refl _)⟩
  · constructor
    · intro hlog
      by_contra hn
      rw [maintanenceCycle_empty_early c st h0 (not_lt.mp hn)] at hlog
      have := congrArg List.length hlog
      simp at this
    · intro hn
      rw [maintanenceCycle_empty_late c st h0 hn]
      rfl
  · intro hn
    rw [maintanenceCycle_empty_late c st h0 hn]
    exact ⟨rfl, rfl⟩

/-- Witness for `empty_table_warning_boundary`. -/
theorem empty_table_warning_boundary_witness :
    sampleEmpty.nodeStoreSize = 0
      ∧ ((maintanenceCycle sampleEmpty (sampleState Janitor_Search_searchType_PARTIAL)).log
            = (sampleState Janitor_Search_searchType_PARTIAL).log ++ [LogLine.warnNoNodes]
          ↔ (sampleState Janitor_Search_searchType_PARTIAL).janitor.timeOfNextGlobalMaintainence
              < sampleEmpty.now) :=
  ⟨by decide,
    (empty_table_warning_boundary sampleEmpty (sampleState Janitor_Search_searchType_PARTIAL)
      1000 (by decide)).1⟩

/-- A tick on an empty table whose clock is more than a period below `2 ^ 64` keeps the
period, never moves the schedule backwards, and moves it forward by one period when it
logs the warning. -/
theorem empty_tick_schedule (c : Collaborators) (st : State) (h0 : c.nodeStoreSize = 0)
    (hw : c.now + st.janitor.globalMaintainenceMilliseconds < 2 ^ 64) :
    (maintanenceCycle c st).janitor.globalMaintainenceMilliseconds
        = st.janitor.globalMaintainenceMilliseconds
      ∧ st.janitor.timeOfNextGlobalMaintainence
          ≤ (maintanenceCycle c st).janitor.timeOfNextGlobalMaintainence
      ∧ (st.janitor.timeOfNextGlobalMaintainence < c.now →
          (maintanenceCycle c st).janitor.timeOfNextGlobalMaintainence
            = st.janitor.timeOfNextGlobalMaintainence
                + st.janitor.globalMaintainenceMilliseconds) := by
  rcases Nat.lt_or_ge st.janitor.timeOfNextGlobalMaintainence c.now with hn | hn
  · rw [maintanenceCycle_empty_late c st h0 hn]
    have hmod : (st.janitor.timeOfNextGlobalMaintainence
        + st.janitor.globalMaintainenceMilliseconds) % 2 ^ 64
        = st.janitor.timeOfNextGlobalMaintainence
            + st.janitor.globalMaintainenceMilliseconds :=
      Nat.mod_eq_of_lt (by omega)
    refine ⟨rfl, ?_, fun _ => ?_⟩
    · rw [advance_next, say_janitor, hmod]
      exact Nat.le_add_right _ _
    · rw [advance_next, say_janitor, hmod]
  · rw [maintanenceCycle_empty_early c st h0 hn]
    exact ⟨rfl, le_refl _, fun h => absurd h (not_lt.mpr hn)⟩

theorem empty_ticks_schedule (mid : List Collaborators) (st : State)
    (h0 : ∀ c ∈ mid, c.nodeStoreSize = 0)
    (hw : ∀ c ∈ mid, c.now + st.janitor.globalMaintainenceMilliseconds < 2 ^ 64) :
    (run st (mid.map Input.tick)).janitor.globalMaintainenceMilliseconds
        = st.janitor.globalMaintainenceMilliseconds
      ∧ st.janitor.timeOfNextGlobalMaintainence
          ≤ (run st (mid.map Input.tick)).janitor.timeOfNextGlobalMaintainence := by
  induction mid generalizing st with
  | nil => exact ⟨rfl, le_refl _⟩
  | cons c mid ih =>
    obtain ⟨hp, hle, _⟩ :=
      empty_tick_schedule c st (h0 c (List.mem_cons_self _ _)) (hw c (List.mem_cons_self _ _))
    obtain ⟨ihp, ihle⟩ := ih (maintanenceCycle c st)
      (fun d hd => h0 d (List.mem_cons_of_mem _ hd))
      (fun d hd => by rw [hp]; exact hw d (List.mem_cons_of_mem _ hd))
    exact ⟨ihp.trans hp, le_trans hle ihle⟩

/-- C8, refuted as stated: a fresh engine with a period of 30000 ms and an empty table is
ticked at 20000 and at 40000.  Both ticks log the warning, 20000 ms apart. -/
theorem warning_rate_counterexample :
    (emptyAt 20000).nodeStoreSize = 0 ∧ (emptyAt 40000).nodeStoreSize = 0
      ∧ (emptyAt 20000).now ≤ (emptyAt 40000).now
      ∧ (maintanenceCycle (emptyAt 20000) (Janitor_new 30000 0)).log
          = (Janitor_new 30000 0).log ++ [LogLine.warnNoNodes]
      ∧ (maintanenceCycle (emptyAt 40000)
          (maintanenceCycle (emptyAt 20000) (Janitor_new 30000 0))).log
          = (maintanenceCycle (emptyAt 20000) (Janitor_new 30000 0)).log
              ++ [LogLine.warnNoNodes]
      ∧ (emptyAt 40000).now - (emptyAt 20000).now
          < (Janitor_new 30000 0).janitor.globalMaintainenceMilliseconds := by
  decide

/-- C8, amended: the warning is rate-limited against the schedule, not against the clock.
Take ticks on an empty table whose clock values are more than a period below `2 ^ 64`.  If a
tick logs the warning when `timeOfNextGlobalMaintainence` is `t`, then every later tick that
logs it has a clock value strictly greater than `t` plus the period.  So two warnings are less
than a period apart only by as much as the earlier tick was late: the later clock value plus
that lateness is at least the earlier clock value plus the period. -/
theorem warning_schedule_bound (st : State) (c0 : Collaborators) (mid : List Collaborators)
    (c1 : Collaborators) (h0 : c0.nodeStoreSize = 0) (hmid : ∀ c ∈ mid, c.nodeStoreSize = 0)
    (h1 : c1.nodeStoreSize = 0)
    (hw0 : c0.now + st.janitor.globalMaintainenceMilliseconds < 2 ^ 64)
    (hwmid : ∀ c ∈ mid, c.now + st.janitor.globalMaintainenceMilliseconds < 2 ^ 64)
    (hwarn0 : (maintanenceCycle c0 st).log = st.log ++ [LogLine.warnNoNodes])
    (hwarn1 : (maintanenceCycle c1 (run (maintanenceCycle c0 st) (mid.map Input.tick))).log
      = (run (maintanenceCycle c0 st) (mid.map Input.tick)).log ++ [LogLine.warnNoNodes]) :
    st.janitor.timeOfNextGlobalMaintainence + st.janitor.globalMaintainenceMilliseconds
        < c1.now
      ∧ c0.now + st.janitor.globalMaintainenceMilliseconds
          ≤ c1.now + (c0.now - (st.janitor.timeOfNextGlobalMaintainence + 1)) := by
  have hlate0 : st.janitor.timeOfNextGlobalMaintainence < c0.now := by
    by_contra hn
    rw [maintanenceCycle_empty_early c0 st h0 (not_lt.mp hn)] at hwarn0
    have := congrArg List.length hwarn0
    simp at this
  have hlate1 : (run (maintanenceCycle c0 st)
      (mid.map Input.tick)).janitor.timeOfNextGlobalMaintainence < c1.now := by
    by_contra hn
    rw [maintanenceCycle_empty_early c1 _ h1 (not_lt.mp hn)] at hwarn1
    have := congrArg List.length hwarn1
    simp at this
  obtain ⟨hp, _, hadv⟩ := empty_tick_schedule c0 st h0 hw0
  obtain ⟨_, hle⟩ := empty_ticks_schedule mid (maintanenceCycle c0 st) hmid
    (fun d hd => by rw [hp]; exact hwmid d hd)
  rw [hadv hlate0] at hle
  constructor
  · exact lt_of_le_of_lt hle hlate1
  · omega

/-- Witness for `warning_schedule_bound`: a fresh engine with a period of 30000 ms, ticked
on an empty table at 20000, 25000 and 40000. -/
theorem warning_schedule_bound_witness :
    (emptyAt 20000).nodeStoreSize = 0
      ∧ (∀ c ∈ [emptyAt 25000], c.nodeStoreSize = 0)
      ∧ (emptyAt 40000).nodeStoreSize = 0
      ∧ (maintanenceCycle (emptyAt 20000) (Janitor_new 30000 0)).log
          = (Janitor_new 30000 0).log ++ [LogLine.warnNoNodes]
      ∧ (maintanenceCycle (emptyAt 40000)
          (run (maintanenceCycle (emptyAt 20000) (Janitor_new 30000 0))
            ([emptyAt 25000].map Input.tick))).log
          = (run (maintanenceCycle (emptyAt 20000) (Janitor_new 30000 0))
              ([emptyAt 25000].map Input.tick)).log ++ [LogLine.warnNoNodes]
      ∧ (Janitor_new 30000 0).janitor.timeOfNextGlobalMaintainence
          + (Janitor_new 30000 0).janitor.globalMaintainenceMilliseconds < (emptyAt 40000).now :=
  have hmid : ∀ c ∈ [emptyAt 25000], c.nodeStoreSize = 0 := by
    intro c hc
    rw [List.mem_singleton] at hc
    rw [hc]
    rfl
  have hwmid : ∀ c ∈ [emptyAt 25000],
      c.now + (Janitor_new 30000 0).janitor.globalMaintainenceMilliseconds < 2 ^ 64 := by
    intro c hc
    rw [List.mem_singleton] at hc
    rw [hc]
    decide
  ⟨by decide, hmid, by decide, by decide, by decide,
    (warning_schedule_bound (Janitor_new 30000 0) (emptyAt 20000) [emptyAt 25000]
      (emptyAt 40000) (by decide) hmid (by decide) (by decide) hwmid (by decide)
      (by decide)).1⟩

/-! ## Ticks that pick a node of reach 0 -/

/-- The choice made by lines 177-193 when the random node has reach 0. -/
theorem chooseTarget_zero_reach (c : Collaborators) (st : State) (node : Node)
    (hnode : c.getNode = some node) (hreach : node.reach = 0) :
    chooseTarget c st
      = (Janitor_Search_searchType_COMPLETE, node.address.ip6,
          (st.emit Event.getNode).emit (Event.pingNode node)) := by
  unfold chooseTarget
  rw [hnode]
  simp [hreach]

/-- C10: in a tick on a non-empty table whose random node has reach 0, the node is pinged
and the routing lookup is made for that node's identifier.  Whatever follows is decided for
that identifier and with kind COMPLETE: the sparse branch and the global branch both call the
launch operation with them, and the covered branch launches nothing.  Hence the tick adds at
most one session, with that target and kind COMPLETE, and any request to the search runner is
for that target. -/
theorem tick_zero_reach_node_complete (c : Collaborators) (st : State) (node : Node)
    (h0 : c.nodeStoreSize ≠ 0) (hnode : c.getNode = some node) (hreach : node.reach = 0) :
    (beforeLaunch c st).events
        = st.events ++ [Event.getNode, Event.pingNode node, Event.lookup node.address.ip6]
      ∧ (nullOrZeroReach (c.lookup node.address.ip6) = true →
          maintanenceCycle c st
            = search c node.address.ip6 (beforeLaunch c st) Janitor_Search_searchType_COMPLETE)
      ∧ (nullOrZeroReach (c.lookup node.address.ip6) = false →
          st.janitor.timeOfNextGlobalMaintainence < c.now →
          maintanenceCycle c st
            = advanceGlobalMaintainence (search c node.address.ip6 (beforeLaunch c st)
                Janitor_Search_searchType_COMPLETE))
      ∧ (nullOrZeroReach (c.lookup node.address.ip6) = false →
          c.now ≤ st.janitor.timeOfNextGlobalMaintainence →
          maintanenceCycle c st = beforeLaunch c st)
      ∧ ((maintanenceCycle c st).sessions = st.sessions
          ∨ (maintanenceCycle c st).sessions
              = (st.fresh, { best := Address.zero, target := node.address.ip6,
                             searchType := Janitor_Search_searchType_COMPLETE,
                             alloc := st.fresh }) :: st.sessions)
      ∧ ((maintanenceCycle c st).events
            = st.events ++ [Event.getNode, Event.pingNode node, Event.lookup node.address.ip6]
          ∨ (maintanenceCycle c st).events
              = st.events ++ [Event.getNode, Event.pingNode node, Event.lookup node.address.ip6]
                  ++ [Event.allocatorChild st.fresh,
                      Event.searchRunnerSearch node.address.ip6 st.fresh]) := by
  have hch := chooseTarget_zero_reach c st node hnode hreach
  have hty : (chooseTarget c st).1 = Janitor_Search_searchType_COMPLETE := by rw [hch]
  have htg : (chooseTarget c st).2.1 = node.address.ip6 := by rw [hch]
  have hev : (beforeLaunch c st).events
      = st.events ++ [Event.getNode, Event.pingNode node, Event.lookup node.address.ip6] := by
    unfold beforeLaunch
    rw [hch]
    simp
  obtain ⟨_, hs, hf, _⟩ := beforeLaunch_frame c st
  have hsparse : nullOrZeroReach (c.lookup node.address.ip6) = true →
      maintanenceCycle c st
        = search c node.address.ip6 (beforeLaunch c st) Janitor_Search_searchType_COMPLETE := by
    intro hz
    rw [maintanenceCycle_sparse c st h0 (by rw [htg]; exact hz), htg, hty]
  have hglobal : nullOrZeroReach (c.lookup node.address.ip6) = false →
      st.janitor.timeOfNextGlobalMaintainence < c.now →
      maintanenceCycle c st
        = advanceGlobalMaintainence (search c node.address.ip6 (beforeLaunch c st)
            Janitor_Search_searchType_COMPLETE) := by
    intro hz hn
    rw [maintanenceCycle_global c st h0 (by rw [htg]; exact hz) hn, htg]
  have hcovered : nullOrZeroReach (c.lookup node.address.ip6) = false →
      c.now ≤ st.janitor.timeOfNextGlobalMaintainence →
      maintanenceCycle c st = beforeLaunch c st := by
    intro hz hn
    exact maintanenceCycle_covered c st h0 (by rw [htg]; exact hz) hn
  have hlaunch :
      ((search c node.address.ip6 (beforeLaunch c st)
            Janitor_Search_searchType_COMPLETE).sessions = st.sessions
          ∨ (search c node.address.ip6 (beforeLaunch c st)
              Janitor_Search_searchType_COMPLETE).sessions
              = (st.fresh, { best := Address.zero, target := node.address.ip6,
                             searchType := Janitor_Search_searchType_COMPLETE,
                             alloc := st.fresh }) :: st.sessions)
        ∧ ((search c node.address.ip6 (beforeLaunch c st)
              Janitor_Search_searchType_COMPLETE).events
            = st.events ++ [Event.getNode, Event.pingNode node, Event.lookup node.address.ip6]
          ∨ (search c node.address.ip6 (beforeLaunch c st)
              Janitor_Search_searchType_COMPLETE).events
              = st.events ++ [Event.getNode, Event.pingNode node, Event.lookup node.address.ip6]
                  ++ [Event.allocatorChild st.fresh,
                      Event.searchRunnerSearch node.address.ip6 st.fresh]) := by
    rcases search_cases c node.address.ip6 (beforeLaunch c st)
        Janitor_Search_searchType_COMPLETE with ⟨_, h⟩ | ⟨_, _, h⟩ | ⟨_, _, h⟩ <;> rw [h]
    · exact ⟨Or.inl hs, Or.inl hev⟩
    · refine ⟨Or.inl hs, Or.inr ?_⟩
      show (beforeLaunch c st).events ++ [Event.allocatorChild (beforeLaunch c st).fresh]
          ++ [Event.searchRunnerSearch node.address.ip6 (beforeLaunch c st).fresh] = _
      rw [hev, hf]
      simp
    · refine ⟨Or.inr ?_, Or.inr ?_⟩
      · show ((beforeLaunch c st).fresh, _) :: (beforeLaunch c st).sessions = _
        rw [hs, hf]
      · show (beforeLaunch c st).events ++ [Event.allocatorChild (beforeLaunch c st).fresh]
            ++ [Event.searchRunnerSearch node.address.ip6 (beforeLaunch c st).fresh] = _
        rw [hev, hf]
        simp
  refine ⟨hev, hsparse, hglobal, hcovered, ?_⟩
  cases hz : nullOrZeroReach (c.lookup node.address.ip6) with
  | true =>
    rw [hsparse hz]
    exact hlaunch
  | false =>
    rcases Nat.lt_or_ge st.janitor.timeOfNextGlobalMaintainence c.now with hn | hn
    · rw [hglobal hz hn]
      exact hlaunch
    · rw [hcovered hz hn]
      exact ⟨Or.inl hs, Or.inl hev⟩

/-- Witness for `tick_zero_reach_node_complete`: the random node is `sampleNode`, of
reach 0, and the tick launches a COMPLETE search for its identifier. -/
theorem tick_zero_reach_node_complete_witness :
    sampleSparse.nodeStoreSize ≠ 0 ∧ sampleSparse.getNode = some sampleNode
      ∧ sampleNode.reach = 0
      ∧ (maintanenceCycle sampleSparse (Janitor_new 1000 0)).sessions
          = [(0, { best := Address.zero, target := 77,
                   searchType := Janitor_Search_searchType_COMPLETE, alloc := 0 })]
      ∧ (beforeLaunch sampleSparse (Janitor_new 1000 0)).events
          = (Janitor_new 1000 0).events
              ++ [Event.getNode, Event.pingNode sampleNode,
                  Event.lookup sampleNode.address.ip6] :=
  ⟨by decide, by decide, by decide, by decide,
    (tick_zero_reach_node_complete sampleSparse (Janitor_new 1000 0) sampleNode (by decide)
      (by decide) (by decide)).1⟩

/-! ## The two launching branches of a tick -/

/-- A launch never touches the schedule or the period. -/
theorem search_schedule (c : Collaborators) (target : Nat) (st : State) (searchType : Int) :
    (search c target st searchType).janitor.timeOfNextGlobalMaintainence
        = st.janitor.timeOfNextGlobalMaintainence
      ∧ (search c target st searchType).janitor.globalMaintainenceMilliseconds
        = st.janitor.globalMaintainenceMilliseconds := by
  rcases search_cases c target st searchType with ⟨_, h⟩ | ⟨_, _, h⟩ | ⟨_, _, h⟩ <;> rw [h] <;>
    exact ⟨rfl, rfl⟩

/-- Every launch leaves a mark: a log line when it is skipped, a fresh allocator otherwise. -/
theorem search_mark (c : Collaborators) (target : Nat) (st : State) (searchType : Int) :
    (search c target st searchType).log ≠ st.log
      ∨ (search c target st searchType).fresh ≠ st.fresh := by
  rcases search_cases c target st searchType with ⟨_, h⟩ | ⟨_, _, h⟩ | ⟨_, _, h⟩ <;> rw [h]
  · left
    intro hl
    have := congrArg List.length hl
    simp at this
  · right
    exact Nat.succ_ne_self _
  · right
    exact Nat.succ_ne_self _

/-- The collaborator calls of a launch: none when skipped, the child allocator and the
request to the search runner otherwise. -/
theorem search_events (c : Collaborators) (target : Nat) (st : State) (searchType : Int) :
    (20 ≤ st.janitor.searches ∧ (search c target st searchType).events = st.events)
      ∨ (st.janitor.searches < 20
          ∧ (search c target st searchType).events
              = st.events ++ [Event.allocatorChild st.fresh,
                  Event.searchRunnerSearch target st.fresh]) := by
  rcases search_cases c target st searchType with ⟨h0, h⟩ | ⟨h0, _, h⟩ | ⟨h0, _, h⟩ <;> rw [h]
  · exact Or.inl ⟨h0, rfl⟩
  · exact Or.inr ⟨h0, by simp [State.declined]⟩
  · exact Or.inr ⟨h0, by simp [State.launched]⟩

/-- The choice made by lines 177-193 when there is no random node or its reach is not 0. -/
theorem chooseTarget_random (c : Collaborators) (st : State)
    (h : c.getNode = none ∨ ∃ node, c.getNode = some node ∧ node.reach ≠ 0) :
    (chooseTarget c st).1 = Janitor_Search_searchType_PARTIAL
      ∧ (chooseTarget c st).2.1 = c.randomBytes
      ∧ (beforeLaunch c st).events
          = st.events ++ [Event.getNode]
              ++ (match c.getNode with
                  | some node => [Event.pingNode node]
                  | none => [])
              ++ [Event.randomBytes, Event.lookup c.randomBytes] := by
  unfold beforeLaunch chooseTarget
  rcases h with h | ⟨node, h, hr⟩
  · rw [h]
    simp
  · rw [h]
    simp [hr]

/-- C11: in a tick on a non-empty table whose lookup for the chosen target returns no node or
a node of reach 0, the tick is one call of the launch operation, for the chosen target and
with the chosen kind, made in the state reached after the lookup, and nothing after it.
The kind is COMPLETE and the target the random node's identifier when that node exists with
reach 0; otherwise the kind is PARTIAL and the target the bytes drawn from the randomness
source.  `timeOfNextGlobalMaintainence` and the period are left as they were, whatever the
clock shows. -/
theorem sparse_branch_single_launch (c : Collaborators) (st : State)
    (h0 : c.nodeStoreSize ≠ 0)
    (hz : nullOrZeroReach (c.lookup (chooseTarget c st).2.1) = true) :
    maintanenceCycle c st
        = search c (chooseTarget c st).2.1 (beforeLaunch c st) (chooseTarget c st).1
      ∧ (∀ node, c.getNode = some node → node.reach = 0 →
          (chooseTarget c st).1 = Janitor_Search_searchType_COMPLETE
            ∧ (chooseTarget c st).2.1 = node.address.ip6)
      ∧ ((c.getNode = none ∨ ∃ node, c.getNode = some node ∧ node.reach ≠ 0) →
          (chooseTarget c st).1 = Janitor_Search_searchType_PARTIAL
            ∧ (chooseTarget c st).2.1 = c.randomBytes
            ∧ Event.randomBytes ∈ (beforeLaunch c st).events)
      ∧ ((maintanenceCycle c st).events = (beforeLaunch c st).events
          ∨ (maintanenceCycle c st).events
              = (beforeLaunch c st).events
                  ++ [Event.allocatorChild st.fresh,
                      Event.searchRunnerSearch (chooseTarget c st).2.1 st.fresh])
      ∧ (maintanenceCycle c st).janitor.timeOfNextGlobalMaintainence
          = st.janitor.timeOfNextGlobalMaintainence
      ∧ (maintanenceCycle c st).janitor.globalMaintainenceMilliseconds
          = st.janitor.globalMaintainenceMilliseconds := by
  obtain ⟨hj, _, hf, _⟩ := beforeLaunch_frame c st
  obtain ⟨hs1, hs2⟩ :=
    search_schedule c (chooseTarget c st).2.1 (beforeLaunch c st) (chooseTarget c st).1
  rw [maintanenceCycle_sparse c st h0 hz]
  refine ⟨rfl, ?_, ?_, ?_, by rw [hs1, hj], by rw [hs2, hj]⟩
  · intro node hnode hreach
    rw [chooseTarget_zero_reach c st node hnode hreach]
    exact ⟨rfl, rfl⟩
  · intro h
    obtain ⟨h1, h2, h3⟩ := chooseTarget_random c st h
    refine ⟨h1, h2, ?_⟩
    rw [h3]
    simp
  · rcases search_events c (chooseTarget c st).2.1 (beforeLaunch c st) (chooseTarget c st).1
      with ⟨_, h⟩ | ⟨_, h⟩
    · exact Or.inl h
    · right
      rw [h, hf]

/-- Witness for `sparse_branch_single_launch`: a fresh engine whose global maintenance is
overdue is ticked on a table that knows no route; it launches and keeps its schedule. -/
theorem sparse_branch_single_launch_witness :
    sampleSparse.nodeStoreSize ≠ 0
      ∧ nullOrZeroReach
          (sampleSparse.lookup (chooseTarget sampleSparse (Janitor_new 1000 0)).2.1) = true
      ∧ (Janitor_new 1000 0).janitor.timeOfNextGlobalMaintainence < sampleSparse.now
      ∧ (maintanenceCycle sampleSparse (Janitor_new 1000 0)).janitor.timeOfNextGlobalMaintainence
          = (Janitor_new 1000 0).janitor.timeOfNextGlobalMaintainence :=
  ⟨by decide, by decide, by decide,
    (sparse_branch_single_launch sampleSparse (Janitor_new 1000 0) (by decide)
      (by decide)).2.2.2.2.1⟩

/-- C12: in a tick on a non-empty table whose lookup for the chosen target returns a node of
reach > 0, the launch operation is called exactly when `now` is strictly greater than
`timeOfNextGlobalMaintainence`.  It is then called for the chosen target with kind COMPLETE,
whatever kind was chosen, and afterwards `timeOfNextGlobalMaintainence` is the old value plus
the period in `uint64_t` (the plain sum when that is below `2 ^ 64`).  When `now` is not
greater, the tick ends after the lookup: no launch, and the engine, its sessions and its log
are unchanged. -/
theorem global_branch_launch_iff (c : Collaborators) (st : State)
    (h0 : c.nodeStoreSize ≠ 0)
    (hz : nullOrZeroReach (c.lookup (chooseTarget c st).2.1) = false) :
    (st.janitor.timeOfNextGlobalMaintainence < c.now →
        maintanenceCycle c st
            = advanceGlobalMaintainence
                (search c (chooseTarget c st).2.1 (beforeLaunch c st)
                  Janitor_Search_searchType_COMPLETE)
          ∧ (maintanenceCycle c st).janitor.timeOfNextGlobalMaintainence
              = (st.janitor.timeOfNextGlobalMaintainence
                  + st.janitor.globalMaintainenceMilliseconds) % 2 ^ 64
          ∧ (st.janitor.timeOfNextGlobalMaintainence
                + st.janitor.globalMaintainenceMilliseconds < 2 ^ 64 →
              (maintanenceCycle c st).janitor.timeOfNextGlobalMaintainence
                = st.janitor.timeOfNextGlobalMaintainence
                    + st.janitor.globalMaintainenceMilliseconds))
      ∧ (c.now ≤ st.janitor.timeOfNextGlobalMaintainence →
          maintanenceCycle c st = beforeLaunch c st
            ∧ (maintanenceCycle c st).janitor = st.janitor
            ∧ (maintanenceCycle c st).sessions = st.sessions
            ∧ (maintanenceCycle c st).fresh = st.fresh
            ∧ (maintanenceCycle c st).log = st.log)
      ∧ (maintanenceCycle c st = beforeLaunch c st
          ↔ c.now ≤ st.janitor.timeOfNextGlobalMaintainence) := by
  obtain ⟨hj, hs, hf, hl⟩ := beforeLaunch_frame c st
  obtain ⟨hs1, hs2⟩ := search_schedule c (chooseTarget c st).2.1 (beforeLaunch c st)
    Janitor_Search_searchType_COMPLETE
  have hnext : st.janitor.timeOfNextGlobalMaintainence < c.now →
      (maintanenceCycle c st).janitor.timeOfNextGlobalMaintainence
        = (st.janitor.timeOfNextGlobalMaintainence
            + st.janitor.globalMaintainenceMilliseconds) % 2 ^ 64 := by
    intro hn
    rw [maintanenceCycle_global c st h0 hz hn, advance_next, hs1, hs2, hj]
  refine ⟨fun hn => ⟨maintanenceCycle_global c st h0 hz hn, hnext hn, fun hlt => ?_⟩,
    fun hn => ?_, ?_⟩
  · rw [hnext hn]
    exact Nat.mod_eq_of_lt hlt
  · rw [maintanenceCycle_covered c st h0 hz hn]
    exact ⟨rfl, hj, hs, hf, hl⟩
  · constructor
    · intro heq
      by_contra hn
      rw [maintanenceCycle_global c st h0 hz (not_le.mp hn)] at heq
      rcases search_mark c (chooseTarget c st).2.1 (beforeLaunch c st)
        Janitor_Search_searchType_COMPLETE with hm | hm
      · apply hm
        rw [← advance_log, heq]
      · apply hm
        rw [← advance_fresh, heq]
    · exact maintanenceCycle_covered c st h0 hz

/-- Witness for `global_branch_launch_iff`: a covered table and an overdue schedule give a
COMPLETE launch and a schedule advanced by the period. -/
theorem global_branch_launch_iff_witness :
    sampleCovered.nodeStoreSize ≠ 0
      ∧ nullOrZeroReach
          (sampleCovered.lookup (chooseTarget sampleCovered (Janitor_new 1000 0)).2.1) = false
      ∧ (Janitor_new 1000 0).janitor.timeOfNextGlobalMaintainence < sampleCovered.now
      ∧ (maintanenceCycle sampleCovered (Janitor_new 1000 0)).sessions
          = [(0, { best := Address.zero, target := 9,
                   searchType := Janitor_Search_searchType_COMPLETE, alloc := 0 })]
      ∧ (maintanenceCycle sampleCovered (Janitor_new 1000 0)).janitor.timeOfNextGlobalMaintainence
          = ((Janitor_new 1000 0).janitor.timeOfNextGlobalMaintainence
              + (Janitor_new 1000 0).janitor.globalMaintainenceMilliseconds) % 2 ^ 64 :=
  ⟨by decide, by decide, by decide, by decide,
    ((global_branch_launch_iff sampleCovered (Janitor_new 1000 0) (by decide) (by decide)).1
      (by decide)).2.1⟩

/-- C19: in the global branch of a tick (non-empty table, lookup returns a node of
reach > 0, `now` greater than `timeOfNextGlobalMaintainence`) the schedule is advanced by the
period, in `uint64_t`, whatever the launch did.  When the launch is skipped at 20 searches in
flight, or declined by the search runner, the engine afterwards is the old engine with only
the schedule advanced: `searches` is unchanged and no session exists for the attempt.
Nothing remembers the attempt: a later tick in the same branch whose clock is not past the
advanced schedule launches nothing. -/
theorem global_branch_advances_regardless (c : Collaborators) (st : State)
    (h0 : c.nodeStoreSize ≠ 0)
    (hz : nullOrZeroReach (c.lookup (chooseTarget c st).2.1) = false)
    (hn : st.janitor.timeOfNextGlobalMaintainence < c.now) :
    (maintanenceCycle c st).janitor.timeOfNextGlobalMaintainence
        = (st.janitor.timeOfNextGlobalMaintainence
            + st.janitor.globalMaintainenceMilliseconds) % 2 ^ 64
      ∧ (20 ≤ st.janitor.searches ∨ c.searchRunnerSearch (chooseTarget c st).2.1 = false →
          (maintanenceCycle c st).janitor
              = { st.janitor with
                  timeOfNextGlobalMaintainence :=
                    (st.janitor.timeOfNextGlobalMaintainence
                      + st.janitor.globalMaintainenceMilliseconds) % 2 ^ 64 }
            ∧ (maintanenceCycle c st).janitor.searches = st.janitor.searches
            ∧ (maintanenceCycle c st).sessions = st.sessions)
      ∧ (20 ≤ st.janitor.searches →
          (maintanenceCycle c st).events = (beforeLaunch c st).events)
      ∧ (∀ c2 : Collaborators, c2.nodeStoreSize ≠ 0 →
          nullOrZeroReach (c2.lookup (chooseTarget c2 (maintanenceCycle c st)).2.1) = false →
          c2.now ≤ (maintanenceCycle c st).janitor.timeOfNextGlobalMaintainence →
          maintanenceCycle c2 (maintanenceCycle c st)
            = beforeLaunch c2 (maintanenceCycle c st)) := by
  obtain ⟨hj, hs, _, _⟩ := beforeLaunch_frame c st
  obtain ⟨hs1, hs2⟩ := search_schedule c (chooseTarget c st).2.1 (beforeLaunch c st)
    Janitor_Search_searchType_COMPLETE
  have heq := maintanenceCycle_global c st h0 hz hn
  refine ⟨?_, ?_, ?_, ?_⟩
  · rw [heq, advance_next, hs1, hs2, hj]
  · intro hfail
    have hkeep : search c (chooseTarget c st).2.1 (beforeLaunch c st)
          Janitor_Search_searchType_COMPLETE = (beforeLaunch c st).say LogLine.skipping20
        ∨ search c (chooseTarget c st).2.1 (beforeLaunch c st)
          Janitor_Search_searchType_COMPLETE
            = (beforeLaunch c st).declined (chooseTarget c st).2.1 := by
      rcases search_cases c (chooseTarget c st).2.1 (beforeLaunch c st)
        Janitor_Search_searchType_COMPLETE with ⟨_, h⟩ | ⟨_, _, h⟩ | ⟨hlt, hyes, _⟩
      · exact Or.inl h
      · exact Or.inr h
      · exfalso
        rw [hj] at hlt
        rcases hfail with hfull | hno
        · omega
        · rw [hno] at hyes
          cases hyes
    have hjan : (search c (chooseTarget c st).2.1 (beforeLaunch c st)
        Janitor_Search_searchType_COMPLETE).janitor = st.janitor := by
      rcases hkeep with h | h <;> rw [h]
      · exact hj
      · exact hj
    have hses : (search c (chooseTarget c st).2.1 (beforeLaunch c st)
        Janitor_Search_searchType_COMPLETE).sessions = st.sessions := by
      rcases hkeep with h | h <;> rw [h]
      · exact hs
      · exact hs
    rw [heq]
    refine ⟨?_, ?_, ?_⟩
    · unfold advanceGlobalMaintainence
      simp only [hjan]
    · rw [advance_searches, hjan]
    · rw [advance_sessions, hses]
  · intro hfull
    rw [heq, advance_events,
      search_full c _ (beforeLaunch c st) _ (by rw [hj]; exact hfull)]
    rfl
  · intro c2 h02 hz2 hn2
    exact maintanenceCycle_covered c2 _ h02 hz2 hn2

/-- Witness for `global_branch_advances_regardless`: the search runner declines, and the
schedule moves from 0 to 1000 all the same. -/
theorem global_branch_advances_regardless_witness :
    sampleCoveredDeclining.nodeStoreSize ≠ 0
      ∧ nullOrZeroReach (sampleCoveredDeclining.lookup
          (chooseTarget sampleCoveredDeclining (Janitor_new 1000 0)).2.1) = false
      ∧ (Janitor_new 1000 0).janitor.timeOfNextGlobalMaintainence < sampleCoveredDeclining.now
      ∧ (maintanenceCycle sampleCoveredDeclining
          (Janitor_new 1000 0)).janitor.timeOfNextGlobalMaintainence = 1000
      ∧ (maintanenceCycle sampleCoveredDeclining (Janitor_new 1000 0)).janitor.searches = 0
      ∧ (maintanenceCycle sampleCoveredDeclining
          (Janitor_new 1000 0)).janitor.timeOfNextGlobalMaintainence
          = ((Janitor_new 1000 0).janitor.timeOfNextGlobalMaintainence
              + (Janitor_new 1000 0).janitor.globalMaintainenceMilliseconds) % 2 ^ 64 :=
  ⟨by decide, by decide, by decide, by decide, by decide,
    (global_branch_advances_regardless sampleCoveredDeclining (Janitor_new 1000 0) (by decide)
      (by decide) (by decide)).1⟩

/-! ## Declined launches, pings, and the release of a session -/

theorem pingsOf_append (a b : List Event) : pingsOf (a ++ b) = pingsOf a ++ pingsOf b := by
  induction a with
  | nil => rfl
  | cons e a ih =>
    cases e <;> simp [pingsOf, ih]

theorem freesOf_append (a b : List Event) : freesOf (a ++ b) = freesOf a ++ freesOf b := by
  induction a with
  | nil => rfl
  | cons e a ih =>
    cases e <;> simp [freesOf, ih]

/-- What a notification does to the engine and to the sessions depends only on the engine
and the sessions. -/
theorem responseCallback_congr (c : Collaborators) (st1 st2 : State) (promise : Nat)
    (fromNode : Option Node) (hj : st1.janitor = st2.janitor)
    (hs : st1.sessions = st2.sessions) :
    (responseCallback c st1 promise fromNode).janitor
        = (responseCallback c st2 promise fromNode).janitor
      ∧ (responseCallback c st1 promise fromNode).sessions
        = (responseCallback c st2 promise fromNode).sessions := by
  have hu : st1.userData promise = st2.userData promise := by
    unfold State.userData
    rw [hs]
  cases hlive : st2.userData promise with
  | none =>
    rw [responseCallback_dead c st2 promise fromNode hlive,
      responseCallback_dead c st1 promise fromNode (hu.trans hlive)]
    exact ⟨hj, hs⟩
  | some s =>
    have hlive1 := hu.trans hlive
    cases fromNode with
    | none =>
      rw [responseCallback_none c st2 promise s hlive,
        responseCallback_none c st1 promise s hlive1, endSearch_janitor, endSearch_janitor,
        endSearch_sessions, endSearch_sessions, hj, hs]
      exact ⟨rfl, rfl⟩
    | some node =>
      by_cases hk : s.searchType = Janitor_Search_searchType_COMPLETE
      · rw [responseCallback_complete c st2 promise s node hlive hk,
          responseCallback_complete c st1 promise s node hlive1 hk]
        exact ⟨hj, by unfold State.setSession; simp only [hs]⟩
      · rcases lookup_cases c s.target with ⟨n, hn, hr⟩ | hz
        · rw [responseCallback_aborts c st2 promise s node n hlive hk hn
              (Nat.pos_iff_ne_zero.mp hr),
            responseCallback_aborts c st1 promise s node n hlive1 hk hn
              (Nat.pos_iff_ne_zero.mp hr), endSearch_janitor, endSearch_janitor,
            endSearch_sessions, endSearch_sessions]
          refine ⟨?_, ?_⟩
          · show ({ st1.janitor with searches := st1.janitor.searches - 1 } : Janitor)
              = { st2.janitor with searches := st2.janitor.searches - 1 }
            rw [hj]
          · show (st1.setSession promise _).sessions.filter _
              = (st2.setSession promise _).sessions.filter _
            unfold State.setSession
            simp only [hs]
        · rw [responseCallback_waits c st2 promise s node hlive hk hz,
            responseCallback_waits c st1 promise s node hlive1 hk hz]
          exact ⟨hj, by unfold State.setSession State.emit; simp only [hs]⟩

/-- C13: below the bound, when the search runner declines the request, the launch leaves
the engine (`searches` included) and the sessions exactly as they were; the only traces of
the attempt are the child allocator, the declined request and a debug line.  No session is
registered for the attempt, so every later notification acts on the engine and on the
sessions exactly as it would have without the attempt, and one addressed to the promise the
attempt would have produced does nothing. -/
theorem declined_launch_registers_nothing (c : Collaborators) (target : Nat) (st : State)
    (searchType : Int) (hroom : st.janitor.searches < 20)
    (hno : c.searchRunnerSearch target = false) :
    (search c target st searchType).janitor = st.janitor
      ∧ (search c target st searchType).sessions = st.sessions
      ∧ (search c target st searchType).events
          = st.events ++ [Event.allocatorChild st.fresh,
              Event.searchRunnerSearch target st.fresh]
      ∧ (search c target st searchType).log = st.log ++ [LogLine.searchReturnedNull]
      ∧ (∀ (c2 : Collaborators) (promise : Nat) (fromNode : Option Node),
          (responseCallback c2 (search c target st searchType) promise fromNode).janitor
              = (responseCallback c2 st promise fromNode).janitor
            ∧ (responseCallback c2 (search c target st searchType) promise fromNode).sessions
              = (responseCallback c2 st promise fromNode).sessions)
      ∧ (st.userData st.fresh = none →
          ∀ (c2 : Collaborators) (fromNode : Option Node),
            responseCallback c2 (search c target st searchType) st.fresh fromNode
              = search c target st searchType) := by
  rw [search_declined c target st searchType hroom hno]
  refine ⟨rfl, rfl, by simp [State.declined], rfl, ?_, ?_⟩
  · intro c2 promise fromNode
    exact responseCallback_congr c2 _ st promise fromNode rfl rfl
  · intro hdead c2 fromNode
    exact responseCallback_dead c2 _ st.fresh fromNode hdead

/-- Witness for `declined_launch_registers_nothing`. -/
theorem declined_launch_registers_nothing_witness :
    (Janitor_new 1000 0).janitor.searches < 20
      ∧ sampleCoveredDeclining.searchRunnerSearch 9 = false
      ∧ (search sampleCoveredDeclining 9 (Janitor_new 1000 0)
          Janitor_Search_searchType_PARTIAL).janitor = (Janitor_new 1000 0).janitor
      ∧ (search sampleCoveredDeclining 9 (Janitor_new 1000 0)
          Janitor_Search_searchType_PARTIAL).sessions = [] :=
  ⟨by decide, by decide,
    (declined_launch_registers_nothing sampleCoveredDeclining 9 (Janitor_new 1000 0)
      Janitor_Search_searchType_PARTIAL (by decide) (by decide)).1,
    by decide⟩

/-- The pings made before the launch decision: one, to the random node, if there is one. -/
theorem beforeLaunch_pings (c : Collaborators) (st : State) :
    pingsOf (beforeLaunch c st).events
      = pingsOf st.events
          ++ (match c.getNode with
              | some node => [node]
              | none => []) := by
  unfold beforeLaunch chooseTarget
  cases c.getNode with
  | none => simp [pingsOf_append, pingsOf]
  | some node =>
    by_cases hr : node.reach = 0 <;> simp [hr, pingsOf_append, pingsOf]

/-- The collaborator calls of a tick on a non-empty table after its lookup: none, or the
child allocator and the request to the search runner. -/
theorem maintanenceCycle_events_nonempty (c : Collaborators) (st : State)
    (h0 : c.nodeStoreSize ≠ 0) :
    (maintanenceCycle c st).events = (beforeLaunch c st).events
      ∨ ∃ target, (maintanenceCycle c st).events
          = (beforeLaunch c st).events
              ++ [Event.allocatorChild st.fresh, Event.searchRunnerSearch target st.fresh] := by
  obtain ⟨_, _, hf, _⟩ := beforeLaunch_frame c st
  have hsearch : ∀ target searchType,
      (search c target (beforeLaunch c st) searchType).events = (beforeLaunch c st).events
        ∨ ∃ t, (search c target (beforeLaunch c st) searchType).events
            = (beforeLaunch c st).events
                ++ [Event.allocatorChild st.fresh, Event.searchRunnerSearch t st.fresh] := by
    intro target searchType
    rcases search_events c target (beforeLaunch c st) searchType with ⟨_, h⟩ | ⟨_, h⟩
    · exact Or.inl h
    · exact Or.inr ⟨target, by rw [h, hf]⟩
  cases hz : nullOrZeroReach (c.lookup (chooseTarget c st).2.1) with
  | true =>
    rw [maintanenceCycle_sparse c st h0 hz]
    exact hsearch _ _
  | false =>
    rcases Nat.lt_or_ge st.janitor.timeOfNextGlobalMaintainence c.now with hn | hn
    · rw [maintanenceCycle_global c st h0 hz hn, advance_events]
      exact hsearch _ _
    · rw [maintanenceCycle_covered c st h0 hz hn]
      exact Or.inl rfl

/-- C14: a tick on a non-empty table issues exactly one ping, to the node returned by
`RouterModule_getNode`, when that call returns a node, and no ping when it returns none.
This holds for every reach of the node, every clock value, every value of `searches` and
every branch taken afterwards. -/
theorem tick_pings_random_node (c : Collaborators) (st : State) (h0 : c.nodeStoreSize ≠ 0) :
    pingsOf (maintanenceCycle c st).events
      = pingsOf st.events
          ++ (match c.getNode with
              | some node => [node]
              | none => []) := by
  rcases maintanenceCycle_events_nonempty c st h0 with h | ⟨t, h⟩
  · rw [h, beforeLaunch_pings]
  · rw [h, pingsOf_append, beforeLaunch_pings]
    simp [pingsOf]

/-- Witness for `tick_pings_random_node`: the one ping goes to `sampleNode`. -/
theorem tick_pings_random_node_witness :
    sampleSparse.nodeStoreSize ≠ 0
      ∧ pingsOf (maintanenceCycle sampleSparse (Janitor_new 1000 0)).events
          = pingsOf (Janitor_new 1000 0).events ++ [sampleNode] :=
  ⟨by decide, tick_pings_random_node sampleSparse (Janitor_new 1000 0) (by decide)⟩

/-- A live session that is notified is either ended, with its allocator freed once and
`searches` decremented, or kept, with nothing freed and the engine unchanged; when it is kept
after a notification with a node, its best-address-seen is that node's address. -/
theorem responseCallback_ended_or_kept (c : Collaborators) (st : State) (promise : Nat)
    (s : Janitor_Search) (fromNode : Option Node) (hlive : st.userData promise = some s) :
    ((responseCallback c st promise fromNode).userData promise = none
        ∧ freesOf (responseCallback c st promise fromNode).events
            = freesOf st.events ++ [s.alloc]
        ∧ (responseCallback c st promise fromNode).janitor.searches
            = st.janitor.searches - 1)
      ∨ ((∃ node, fromNode = some node
            ∧ (responseCallback c st promise fromNode).userData promise
                = some { s with best := node.address })
          ∧ freesOf (responseCallback c st promise fromNode).events = freesOf st.events
          ∧ (responseCallback c st promise fromNode).janitor = st.janitor) := by
  cases fromNode with
  | none =>
    left
    rw [responseCallback_none c st promise s hlive]
    refine ⟨endSearch_userData _ _ _, ?_, endSearch_searches _ _ _⟩
    rw [endSearch_events, freesOf_append, freesOf_append]
    by_cases hp : s.best.path = 0 <;> simp [hp, freesOf]
  | some node =>
    by_cases hk : s.searchType = Janitor_Search_searchType_COMPLETE
    · right
      rw [responseCallback_complete c st promise s node hlive hk]
      exact ⟨⟨node, rfl, userData_setSession_same st promise s _ hlive⟩, rfl, rfl⟩
    · rcases lookup_cases c s.target with ⟨n, hn, hr⟩ | hz
      · left
        rw [responseCallback_aborts c st promise s node n hlive hk hn
          (Nat.pos_iff_ne_zero.mp hr)]
        refine ⟨endSearch_userData _ _ _, ?_, ?_⟩
        · rw [endSearch_events, freesOf_append, freesOf_append]
          show freesOf (st.events ++ [Event.lookup s.target]) ++ _ ++ _ = _
          rw [freesOf_append]
          by_cases hp : node.address.path = 0 <;> simp [hp, freesOf]
        · rw [endSearch_searches]
          rfl
      · right
        rw [responseCallback_waits c st promise s node hlive hk hz]
        refine ⟨⟨node, rfl, ?_⟩, ?_, rfl⟩
        · rw [userData_emit]
          exact userData_setSession_same st promise s _ hlive
        · show freesOf (st.events ++ [Event.lookup s.target]) = _
          rw [freesOf_append]
          simp [freesOf]

/-- C16: for every live session, of either kind, a notification without a "from" node ends
it.  The routing lookup is not consulted and best-address-seen is used as stored: the
collaborator calls are the trace of the stored path (when it is not 0) and the release of the
session's allocator, nothing else; `searches` is decremented by one and the promise is
dropped.  More generally every notification to a live session either ends it and frees its
allocator exactly once, or keeps it registered and frees nothing. -/
theorem no_from_node_ends_session (c : Collaborators) (st : State) (promise : Nat)
    (s : Janitor_Search) (hlive : st.userData promise = some s) :
    (responseCallback c st promise none).events
        = st.events ++ (if s.best.path = 0 then [] else [Event.trace s.best.path])
            ++ [Event.allocatorFree s.alloc]
      ∧ (responseCallback c st promise none).janitor.searches = st.janitor.searches - 1
      ∧ (responseCallback c st promise none).userData promise = none
      ∧ freesOf (responseCallback c st promise none).events = freesOf st.events ++ [s.alloc]
      ∧ ∀ fromNode : Option Node,
          ((responseCallback c st promise fromNode).userData promise = none
              ∧ freesOf (responseCallback c st promise fromNode).events
                  = freesOf st.events ++ [s.alloc])
            ∨ ((responseCallback c st promise fromNode).userData promise ≠ none
              ∧ freesOf (responseCallback c st promise fromNode).events
                  = freesOf st.events) := by
  have hgen : ∀ fromNode : Option Node,
      ((responseCallback c st promise fromNode).userData promise = none
          ∧ freesOf (responseCallback c st promise fromNode).events
              = freesOf st.events ++ [s.alloc])
        ∨ ((responseCallback c st promise fromNode).userData promise ≠ none
          ∧ freesOf (responseCallback c st promise fromNode).events = freesOf st.events) := by
    intro fromNode
    rcases responseCallback_ended_or_kept c st promise s fromNode hlive with
      ⟨h1, h2, _⟩ | ⟨⟨node, _, h1⟩, h2, _⟩
    · exact Or.inl ⟨h1, h2⟩
    · exact Or.inr ⟨by rw [h1]; exact Option.some_ne_none _, h2⟩
  refine ⟨?_, ?_, ?_, ?_, hgen⟩
  · rw [responseCallback_none c st promise s hlive, endSearch_events]
  · rw [responseCallback_none c st promise s hlive, endSearch_searches]
  · rw [responseCallback_none c st promise s hlive, endSearch_userData]
  · rcases hgen none with ⟨_, h⟩ | ⟨h, _⟩
    · exact h
    · exfalso
      apply h
      rw [responseCallback_none c st promise s hlive, endSearch_userData]

/-- Witness for `no_from_node_ends_session`: a PARTIAL session that has heard from nobody is
notified without a node; its allocator is freed and nothing else is called. -/
theorem no_from_node_ends_session_witness :
    (sampleState Janitor_Search_searchType_PARTIAL).userData 0
        = some { best := Address.zero, target := 7,
                 searchType := Janitor_Search_searchType_PARTIAL, alloc := 0 }
      ∧ (responseCallback sampleCovered (sampleState Janitor_Search_searchType_PARTIAL) 0
          none).events = [Event.allocatorFree 0]
      ∧ (responseCallback sampleCovered (sampleState Janitor_Search_searchType_PARTIAL) 0
          none).janitor.searches
          = (sampleState Janitor_Search_searchType_PARTIAL).janitor.searches - 1 :=
  ⟨by decide, by decide,
    (no_from_node_ends_session sampleCovered (sampleState Janitor_Search_searchType_PARTIAL) 0
      { best := Address.zero, target := 7,
        searchType := Janitor_Search_searchType_PARTIAL, alloc := 0 } (by decide)).2.1⟩

/-! ## The most recent responder -/

/-- The trace requested by the notification that ends a live session. -/
theorem traces_at_end (c : Collaborators) (st : State) (promise : Nat) (s : Janitor_Search)
    (fromNode : Option Node) (hlive : st.userData promise = some s)
    (hend : (responseCallback c st promise fromNode).userData promise = none) :
    tracesOf (responseCallback c st promise fromNode).events
      = tracesOf st.events
          ++ (if (match fromNode with
                  | some node => node.address
                  | none => s.best).path = 0 then []
              else [(match fromNode with
                     | some node => node.address
                     | none => s.best).path]) := by
  rcases responseCallback_kept_or_ended c st promise fromNode with
    ⟨_, hk, _, _, _⟩ | ⟨s', st0, hlive', _, _, _, _, htr, _, heq⟩
  · exfalso
    rw [userData_eq_none_iff, hk, ← userData_eq_none_iff, hlive] at hend
    cases hend
  · rw [hlive] at hlive'
    cases hlive'
    rw [heq, endSearch_events, tracesOf_append, tracesOf_append, htr]
    cases fromNode with
    | none =>
      by_cases hp : s.best.path = 0 <;> simp [hp, tracesOf]
    | some node =>
      by_cases hp : node.address.path = 0 <;> simp [hp, tracesOf]

/-- Notifications never revive a promise. -/
theorem heardFrom_dead (ns : List (Collaborators × Node)) (st : State) (promise : Nat)
    (hdead : st.userData promise = none) :
    (run st (heardFrom promise ns)).userData promise = none := by
  induction ns generalizing st with
  | nil => exact hdead
  | cons n ns ih =>
    show (run (responseCallback n.1 st promise (some n.2)) (heardFrom promise ns)).userData
      promise = none
    rw [responseCallback_dead n.1 st promise _ hdead]
    exact ih st hdead

/-- After notifications with nodes that did not end the session, best-address-seen is the
address of the last node and the rest of the session is as it was. -/
theorem heardFrom_last (ns : List (Collaborators × Node)) (st : State) (promise : Nat)
    (s : Janitor_Search) (c : Collaborators) (node : Node)
    (hlive : st.userData promise = some s)
    (hkept : (run st (heardFrom promise (ns ++ [(c, node)]))).userData promise ≠ none) :
    (run st (heardFrom promise (ns ++ [(c, node)]))).userData promise
      = some { s with best := node.address } := by
  induction ns generalizing st s with
  | nil =>
    change (responseCallback c st promise (some node)).userData promise ≠ none at hkept
    show (responseCallback c st promise (some node)).userData promise = _
    rcases responseCallback_ended_or_kept c st promise s (some node) hlive with
      ⟨h, _, _⟩ | ⟨⟨node', hn, h⟩, _, _⟩
    · exact absurd h hkept
    · cases hn
      exact h
  | cons n ns ih =>
    change (run (responseCallback n.1 st promise (some n.2))
      (heardFrom promise (ns ++ [(c, node)]))).userData promise ≠ none at hkept
    show (run (responseCallback n.1 st promise (some n.2))
      (heardFrom promise (ns ++ [(c, node)]))).userData promise = _
    rcases responseCallback_ended_or_kept n.1 st promise s (some n.2) hlive with
      ⟨h, _, _⟩ | ⟨⟨node', hn, h⟩, _, _⟩
    · exact absurd (heardFrom_dead _ _ promise h) hkept
    · exact ih _ { s with best := node'.address } h hkept

/-- C15: best-address-seen is overwritten by every notification with a present "from" node.
After any sequence of such notifications to a live session that leaves it registered, its
best-address-seen is the full address of the last node, whatever the earlier ones were, and
the rest of the session is untouched.  When the session then ends on a notification without
a node, the trace it requests is for the path of that last node; when it ends on a
notification with a node, the trace is for the path of that node.  (In both cases the trace
is requested when that path is not 0.) -/
theorem most_recent_responder_wins (st : State) (promise : Nat) (s : Janitor_Search)
    (ns : List (Collaborators × Node)) (c : Collaborators) (node : Node)
    (cEnd : Collaborators) (hlive : st.userData promise = some s)
    (hkept : (run st (heardFrom promise (ns ++ [(c, node)]))).userData promise ≠ none) :
    (run st (heardFrom promise (ns ++ [(c, node)]))).userData promise
        = some { s with best := node.address }
      ∧ tracesOf (responseCallback cEnd (run st (heardFrom promise (ns ++ [(c, node)])))
          promise none).events
          = tracesOf (run st (heardFrom promise (ns ++ [(c, node)]))).events
              ++ (if node.address.path = 0 then [] else [node.address.path])
      ∧ ∀ last : Node,
          (responseCallback cEnd (run st (heardFrom promise (ns ++ [(c, node)])))
            promise (some last)).userData promise = none →
          tracesOf (responseCallback cEnd (run st (heardFrom promise (ns ++ [(c, node)])))
            promise (some last)).events
            = tracesOf (run st (heardFrom promise (ns ++ [(c, node)]))).events
                ++ (if last.address.path = 0 then [] else [last.address.path]) := by
  have hbest := heardFrom_last ns st promise s c node hlive hkept
  refine ⟨hbest, ?_, ?_⟩
  · have hend : (responseCallback cEnd (run st (heardFrom promise (ns ++ [(c, node)])))
        promise none).userData promise = none := by
      rw [responseCallback_none cEnd _ promise _ hbest]
      exact endSearch_userData _ _ _
    exact traces_at_end cEnd _ promise _ none hbest hend
  · intro last hend
    exact traces_at_end cEnd _ promise _ (some last) hbest hend

/-- Witness for `most_recent_responder_wins`: a COMPLETE session hears from
`sampleGoodNode` (path 21) and then from `sampleNode` (path 5); it ends with the trace of
path 5. -/
theorem most_recent_responder_wins_witness :
    (sampleState Janitor_Search_searchType_COMPLETE).userData 0
        = some { best := Address.zero, target := 7,
                 searchType := Janitor_Search_searchType_COMPLETE, alloc := 0 }
      ∧ (run (sampleState Janitor_Search_searchType_COMPLETE)
          (heardFrom 0 ([(sampleEmpty, sampleGoodNode)] ++ [(sampleEmpty, sampleNode)]))).userData
          0 ≠ none
      ∧ (responseCallback sampleEmpty
          (run (sampleState Janitor_Search_searchType_COMPLETE)
            (heardFrom 0 ([(sampleEmpty, sampleGoodNode)] ++ [(sampleEmpty, sampleNode)])))
          0 none).events = [Event.trace 5, Event.allocatorFree 0]
      ∧ (run (sampleState Janitor_Search_searchType_COMPLETE)
          (heardFrom 0 ([(sampleEmpty, sampleGoodNode)] ++ [(sampleEmpty, sampleNode)]))).userData
          0
        = some { best := sampleNode.address, target := 7,
                 searchType := Janitor_Search_searchType_COMPLETE, alloc := 0 } :=
  ⟨by decide, by decide, by decide,
    (most_recent_responder_wins (sampleState Janitor_Search_searchType_COMPLETE) 0
      { best := Address.zero, target := 7,
        searchType := Janitor_Search_searchType_COMPLETE, alloc := 0 }
      [(sampleEmpty, sampleGoodNode)] sampleEmpty sampleNode sampleEmpty
      (by decide) (by decide)).1⟩

/-! ## `searches` counts the live sessions -/

/-- Dropping the one entry of a key from a list without repeated keys. -/
theorem length_filter_key (l : List (Nat × Janitor_Search)) (p : Nat)
    (hnd : (l.map Prod.fst).Nodup) (hp : p ∈ l.map Prod.fst) :
    (l.filter (fun q => q.1 ≠ p)).length + 1 = l.length := by
  induction l with
  | nil => simp at hp
  | cons a l ih =>
    obtain ⟨k, v⟩ := a
    rw [List.map_cons, List.nodup_cons] at hnd
    by_cases hk : k = p
    · subst hk
      rw [List.filter_cons_of_neg (by simp)]
      have hall : l.filter (fun q => q.1 ≠ k) = l := by
        rw [List.filter_eq_self]
        intro q hq
        have : q.1 ≠ k := by
          intro h
          apply hnd.1
          exact List.mem_map.mpr ⟨q, hq, h⟩
        simpa using this
      rw [hall]
      rfl
    · rw [List.filter_cons_of_pos (by simpa using hk), List.length_cons, List.length_cons]
      have hp' : p ∈ l.map Prod.fst := by
        rw [List.map_cons, List.mem_cons] at hp
        rcases hp with h | h
        · exact absurd h.symm hk
        · exact h
      rw [ih hnd.2 hp']

theorem keys_filter (l : List (Nat × Janitor_Search)) (p : Nat) :
    (l.filter (fun q => q.1 ≠ p)).map Prod.fst = (l.map Prod.fst).filter (fun k => k ≠ p) := by
  induction l with
  | nil => rfl
  | cons a l ih =>
    by_cases hk : a.1 = p
    · rw [List.filter_cons_of_neg (by simpa using hk), List.map_cons,
        List.filter_cons_of_neg (by simpa using hk), ih]
    · rw [List.filter_cons_of_pos (by simpa using hk), List.map_cons, List.map_cons,
        List.filter_cons_of_pos (by simpa using hk), ih]

/-- Every input preserves the consistency of the bookkeeping. -/
theorem step_consistent (st : State) (i : Input) (h : st.consistent) :
    (step st i).consistent := by
  obtain ⟨hnd, hlt, hcount⟩ := h
  cases i with
  | tick c =>
    show (maintanenceCycle c st).consistent
    rcases maintanenceCycle_kept_or_launched c st with
      ⟨h1, h2, h3⟩ | ⟨t, ty, _, h1, h2, h3⟩
    · refine ⟨?_, ?_, ?_⟩
      · unfold State.sessionKeys
        rw [h1]
        exact hnd
      · intro k hk
        unfold State.sessionKeys at hk
        rw [h1] at hk
        exact lt_of_lt_of_le (hlt k hk) h3
      · rw [h2, h1]
        exact hcount
    · refine ⟨?_, ?_, ?_⟩
      · unfold State.sessionKeys
        rw [h1, List.map_cons, List.nodup_cons]
        exact ⟨fun hmem => Nat.lt_irrefl _ (hlt _ hmem), hnd⟩
      · intro k hk
        unfold State.sessionKeys at hk
        rw [h1, List.map_cons, List.mem_cons] at hk
        rw [h3]
        rcases hk with hk | hk
        · rw [hk]
          exact Nat.lt_succ_self _
        · exact Nat.lt_succ_of_lt (hlt k hk)
      · rw [h2, h1, hcount]
        simp
  | notify c promise fromNode =>
    show (responseCallback c st promise fromNode).consistent
    rcases responseCallback_kept_or_ended c st promise fromNode with
      ⟨hj, hk, hf, _, _⟩ | ⟨s, st0, _, hj, hk, hf, _, _, hlive0, heq⟩
    · refine ⟨by rw [hk]; exact hnd, fun k hmem => ?_, ?_⟩
      · rw [hf]
        rw [hk] at hmem
        exact hlt k hmem
      · have hlen : (responseCallback c st promise fromNode).sessions.length
            = st.sessions.length := by
          have := congrArg List.length hk
          simpa [State.sessionKeys] using this
        rw [hj, hlen]
        exact hcount
    · have hnd0 : (st0.sessions.map Prod.fst).Nodup := by
        have : st0.sessionKeys.Nodup := by rw [hk]; exact hnd
        exact this
      have hmem0 : promise ∈ st0.sessions.map Prod.fst := by
        by_contra hn
        have := (userData_eq_none_iff st0 promise).mpr hn
        rw [hlive0] at this
        cases this
      have hlen0 : st0.sessions.length = st.sessions.length := by
        have := congrArg List.length hk
        simpa [State.sessionKeys] using this
      have hdrop := length_filter_key st0.sessions promise hnd0 hmem0
      rw [heq]
      refine ⟨?_, ?_, ?_⟩
      · unfold State.sessionKeys
        rw [endSearch_sessions, keys_filter]
        exact hnd0.filter _
      · intro k hmem
        unfold State.sessionKeys at hmem
        rw [endSearch_sessions, keys_filter] at hmem
        rw [endSearch_fresh, hf]
        have hin : k ∈ st0.sessionKeys := (List.mem_filter.mp hmem).1
        rw [hk] at hin
        exact hlt k hin
      · rw [endSearch_searches, endSearch_sessions, hj, hcount]
        omega

theorem run_consistent (inputs : List Input) (st : State) (h : st.consistent) :
    (run st inputs).consistent := by
  induction inputs generalizing st with
  | nil => exact h
  | cons i inputs ih => exact ih (step st i) (step_consistent st i h)

theorem Janitor_new_consistent (period now : Nat) : (Janitor_new period now).consistent :=
  ⟨List.nodup_nil, fun _ hk => absurd hk (List.not_mem_nil _), rfl⟩

/-- C18: in every state reached from a freshly constructed engine by ticks and
notifications (a notification for a promise that is not live reaches no callback),
`searches` equals the number of registered sessions, those launched and not yet ended.  In
particular it is never negative, it is 0 when no session is live, and no promise is
registered twice. -/
theorem searches_counts_live_sessions :
    ∀ (period now : Nat) (inputs : List Input),
      (run (Janitor_new period now) inputs).janitor.searches
          = (run (Janitor_new period now) inputs).sessions.length
        ∧ 0 ≤ (run (Janitor_new period now) inputs).janitor.searches
        ∧ ((run (Janitor_new period now) inputs).sessions = [] →
            (run (Janitor_new period now) inputs).janitor.searches = 0)
        ∧ (run (Janitor_new period now) inputs).sessionKeys.Nodup := by
  intro period now inputs
  obtain ⟨hnd, _, hcount⟩ := run_consistent inputs _ (Janitor_new_consistent period now)
  refine ⟨hcount, ?_, ?_, hnd⟩
  · rw [hcount]
    exact Int.natCast_nonneg _
  · intro hempty
    rw [hcount, hempty]
    rfl

end Cjdns
